import Mathlib

/-!
# opel-goexpert: postal code to temperature across two services

A shallow embedding of `service-b/main.go` (the backend: `isNumeric`,
`getLocalidade`, `getTemperatura`, `climaHandler`) and of `service-a/main.go`
(the frontend: `cepHandler`).

Conventions of the embedding.

* A Go string is a sequence of bytes (`Bytes`).  Strings that were produced by
  the JSON decoder are valid UTF-8 and are kept as `String`; `utf8` gives their
  bytes.
* The network is a parameter: `Upstream.get` answers every `http.Get` of the
  backend, `Frontend.roundTrip` answers `client.Do` of the frontend.
* A body that is JSON text is kept as the value it denotes (`Json`); a JSON
  number is the rational it denotes.
* The temperatures are read twice.  In `getTemperatura`, `climaHandler` and
  `cepHandler` they are exact rationals: the reading of the statements made
  over exact arithmetic, and of those that do not depend on arithmetic.  In
  `getTemperatura64`, `climaHandler64` and `cepHandler64` they are `float64`
  (`F64`): decoding rounds and can fail, arithmetic rounds and can overflow,
  and `c.JSON` cannot encode a value that is not finite.
* Every handler returns its HTTP response together with the list of events it
  produced (spans started and ended, outbound calls and the context they were
  issued under).
* The library functions the handlers call (`strconv.Atoi`, `url.QueryEscape`,
  `url.Parse`, `url.ParseQuery`, `json.Unmarshal` into the structs of the
  program, gin's `c.Query` and `c.ShouldBindJSON`) are embedded from their Go
  sources, each as far as the handlers use it; `strconv.Quote` and the text
  written for a `float64` are parameters.
-/

namespace OpelGoexpert

/-! ## Strings and bytes -/

abbrev Byte := Fin 256

abbrev Bytes := List Byte

/-- UTF-8 encoding of one code point. -/
def utf8EncodeChar (c : Char) : Bytes :=
  let n := c.toNat
  if n < 0x80 then [Fin.ofNat n]
  else if n < 0x800 then [Fin.ofNat (0xC0 + n / 64), Fin.ofNat (0x80 + n % 64)]
  else if n < 0x10000 then
    [Fin.ofNat (0xE0 + n / 4096), Fin.ofNat (0x80 + n / 64 % 64), Fin.ofNat (0x80 + n % 64)]
  else
    [Fin.ofNat (0xF0 + n / 262144), Fin.ofNat (0x80 + n / 4096 % 64),
     Fin.ofNat (0x80 + n / 64 % 64), Fin.ofNat (0x80 + n % 64)]

/-- The bytes of a valid UTF-8 string. -/
def utf8 (s : String) : Bytes := s.toList.flatMap utf8EncodeChar

/-- ASCII decimal digit, `'0' <= b && b <= '9'`. -/
def isDigit (b : Byte) : Prop := 48 ≤ b.val ∧ b.val ≤ 57

instance (b : Byte) : Decidable (isDigit b) := by unfold isDigit; infer_instance

/-! ## JSON values, HTTP results, responses, events -/

inductive Json where
  | null
  | bool (b : Bool)
  | num (q : ℚ)
  | str (s : String)
  | arr (xs : List Json)
  | obj (fields : List (String × Json))

/-- What a reader of an HTTP body gets: a read error, text that is not JSON,
or JSON text denoting a value. -/
inductive Body where
  | unreadable
  | malformed
  | json (v : Json)

/-- Outcome of one outbound HTTP call: `err != nil`, or a response. -/
inductive HttpResult where
  | transportError
  | response (status : Nat) (body : Body)

/-- What `c.JSON(status, body)` writes. -/
structure Response where
  status : Nat
  body : Json

/-- The context an outbound request is issued under: the inbound request's
(`c.Request.Context()`), or `context.Background()` as `http.Get` uses. -/
inductive Ctx where
  | request
  | background
deriving DecidableEq

inductive Event where
  | spanStart (name : String)
  | spanEnd (name : String)
  | httpCall (ctx : Ctx) (url : Bytes)
deriving DecidableEq

/-- Body of `gin.H{key: text}`. -/
def H (key text : String) : Json := .obj [(key, .str text)]

def StatusOK : Nat := 200
def StatusNotFound : Nat := 404
def StatusUnprocessableEntity : Nat := 422
def StatusInternalServerError : Nat := 500

/-! ## encoding/json: decoding an object into a struct

`json.Unmarshal` into a struct accepts `null` (no field is touched) and objects;
a key selects the field whose name it equals after case folding; a value of the
wrong kind for its field is an `UnmarshalTypeError`; `null` leaves its field
untouched; an unknown key is skipped; a repeated key overwrites. -/

/-- Case folding of one code point as `encoding/json` does it: the smallest
member of the simple-folding orbit.  ASCII letters fold to upper case, the
Kelvin sign U+212A to `K`, the long s U+017F to `S`; every other code point
outside ASCII folds to a code point outside ASCII, for which it stands itself
here (all field names below are ASCII, so only equality with ASCII matters). -/
def foldRune (c : Char) : Char :=
  if 'a' ≤ c ∧ c ≤ 'z' then Char.ofNat (c.toNat - 32)
  else if c = Char.ofNat 0x212A then 'K'
  else if c = Char.ofNat 0x017F then 'S'
  else c

def foldName (s : String) : String := String.mk (s.toList.map foldRune)

/-- The key `key` of a JSON object selects the struct field tagged `name`. -/
def keyMatches (key name : String) : Bool := foldName key == foldName name

structure ViaCEPResponse where
  Localidade : String

structure WeatherCurrent where
  TempC : ℚ

structure WeatherResponse where
  Current : WeatherCurrent

def decodeViaCEPFields : List (String × Json) → ViaCEPResponse → Option ViaCEPResponse
  | [], r => some r
  | (k, v) :: rest, r =>
    if keyMatches k "localidade" then
      match v with
      | .str s => decodeViaCEPFields rest ⟨s⟩
      | .null => decodeViaCEPFields rest r
      | _ => none
    else decodeViaCEPFields rest r

/-- Function `json.Unmarshal(body, &viaCEPResponse)` on a parsed body;
`none` is `err != nil`. -/
def unmarshalViaCEP : Json → Option ViaCEPResponse
  | .null => some ⟨""⟩
  | .obj fields => decodeViaCEPFields fields ⟨""⟩
  | _ => none

def decodeCurrentFields : List (String × Json) → WeatherCurrent → Option WeatherCurrent
  | [], r => some r
  | (k, v) :: rest, r =>
    if keyMatches k "temp_c" then
      match v with
      | .num q => decodeCurrentFields rest ⟨q⟩
      | .null => decodeCurrentFields rest r
      | _ => none
    else decodeCurrentFields rest r

def decodeCurrent (v : Json) (r : WeatherCurrent) : Option WeatherCurrent :=
  match v with
  | .null => some r
  | .obj fields => decodeCurrentFields fields r
  | _ => none

def decodeWeatherFields : List (String × Json) → WeatherResponse → Option WeatherResponse
  | [], r => some r
  | (k, v) :: rest, r =>
    if keyMatches k "current" then
      match decodeCurrent v r.Current with
      | some cur => decodeWeatherFields rest ⟨cur⟩
      | none => none
    else decodeWeatherFields rest r

/-- Function `json.Unmarshal(body, &openWeatherResponse)` on a parsed body. -/
def unmarshalWeather : Json → Option WeatherResponse
  | .null => some ⟨⟨0⟩⟩
  | .obj fields => decodeWeatherFields fields ⟨⟨0⟩⟩
  | _ => none

/-! ## strconv.Atoi and `isNumeric` -/

/-- The digit loop of `strconv.Atoi`: `ch -= '0'; if ch > 9 { error }` on
bytes (the subtraction wraps), accumulating `n = n*10 + ch`. -/
def atoiLoop : Bytes → Nat → Option Nat
  | [], n => some n
  | ch :: rest, n =>
    let d := (ch.val + 256 - 48) % 256
    if d > 9 then none else atoiLoop rest (n * 10 + d)

/-- Function `strconv.ParseInt(s, 10, 0)` on a 64-bit platform, the slow path
of `Atoi`: optional sign, then `ParseUint` (non-empty, digits only, below
2^64), then the range check against 2^63.  `none` is `err != nil`. -/
def ParseInt (s : Bytes) : Option Int :=
  match s with
  | [] => none
  | c :: rest =>
    let neg := c.val = 45
    let digits := if c.val = 43 ∨ c.val = 45 then rest else s
    if digits = [] then none
    else
      match atoiLoop digits 0 with
      | none => none
      | some un =>
        if un ≥ 2 ^ 64 then none
        else if ¬ neg ∧ un ≥ 2 ^ 63 then none
        else if neg ∧ un > 2 ^ 63 then none
        else some (if neg then - (un : Int) else (un : Int))

/-- Function `strconv.Atoi` (64-bit `int`): strings of 1 to 18 bytes take the
fast path (sign, digit loop, no range check needed); all others go through
`ParseInt`.  `none` is `err != nil`. -/
def Atoi (s : Bytes) : Option Int :=
  match s with
  | [] => ParseInt s
  | c :: rest =>
    if s.length < 19 then
      let signed := c.val = 45 ∨ c.val = 43
      let digits := if signed then rest else s
      if signed ∧ digits.length < 1 then none
      else
        match atoiLoop digits 0 with
        | none => none
        | some n => some (if c.val = 45 then - (n : Int) else (n : Int))
    else ParseInt s

def isNumeric (s : Bytes) : Bool := (Atoi s).isSome

/-! ## The backend: `getLocalidade`, `getTemperatura`, `climaHandler` -/

inductive GoError where
  | transport
  | read
  | decode
  | message (text : String)

/-- The world of the backend: what each `http.Get` returns, and the value of
`WEATHER_API_KEY`. -/
structure Upstream where
  get : Bytes → HttpResult
  weatherAPIKey : Bytes

/-- Hexadecimal digit in upper case, as `url.QueryEscape` writes it. -/
def upperhex (n : Nat) : Byte := if n < 10 then Fin.ofNat (48 + n) else Fin.ofNat (55 + n)

/-- Bytes that `url.QueryEscape` leaves as they are: letters, digits and
`-`, `_`, `.`, `~`. -/
def unreserved (b : Byte) : Bool :=
  (97 ≤ b.val && b.val ≤ 122) || (65 ≤ b.val && b.val ≤ 90) || (48 ≤ b.val && b.val ≤ 57)
    || b.val == 45 || b.val == 95 || b.val == 46 || b.val == 126

/-- Function `url.QueryEscape`: a space becomes `+`, every byte that is not
unreserved becomes `%XX`. -/
def QueryEscape (s : Bytes) : Bytes :=
  s.flatMap fun b =>
    if b.val = 32 then [43]
    else if unreserved b then [b]
    else [37, upperhex (b.val / 16), upperhex (b.val % 16)]

/-- `fmt.Sprintf(viaCEPURL, cep)`. -/
def viaCEPURL (cep : Bytes) : Bytes :=
  utf8 "https://viacep.com.br/ws/" ++ cep ++ utf8 "/json/"

/-- `fmt.Sprintf(weatherURL, weatherAPIKey, url.QueryEscape(localidade))`. -/
def weatherURL (key : Bytes) (q : Bytes) : Bytes :=
  utf8 "https://api.weatherapi.com/v1/current.json?key=" ++ key ++ utf8 "&q=" ++ q
    ++ utf8 "&aqi=no"

def getTemperatura (up : Upstream) (localidade : String) :
    Except GoError (ℚ × ℚ × ℚ) × List Event :=
  let url := weatherURL up.weatherAPIKey (QueryEscape (utf8 localidade))
  let result : Except GoError (ℚ × ℚ × ℚ) :=
    match up.get url with
    | .transportError => .error .transport
    | .response status body =>
      if status ≠ 200 then .error (.message "error fetching weather data")
      else
        match body with
        | .unreadable => .error .read
        | .malformed => .error .decode
        | .json v =>
          match unmarshalWeather v with
          | none => .error .decode
          | some openWeatherResponse =>
            let tempC := openWeatherResponse.Current.TempC
            let tempF := tempC * 1.8 + 32
            let tempK := tempC + 273.15
            .ok (tempC, tempF, tempK)
  (result, [.spanStart "getTemperatura", .httpCall .background url, .spanEnd "getTemperatura"])

def getLocalidade (up : Upstream) (cep : Bytes) : Except GoError String × List Event :=
  let url := viaCEPURL cep
  let result : Except GoError String :=
    match up.get url with
    | .transportError => .error .transport
    | .response _ body =>
      match body with
      | .unreadable => .error .read
      | .malformed => .error .decode
      | .json v =>
        match unmarshalViaCEP v with
        | none => .error .decode
        | some viaCEPResponse =>
          if viaCEPResponse.Localidade = "" then .error (.message "localidade não encontrada")
          else .ok viaCEPResponse.Localidade
  (result, [.spanStart "getLocalidade", .httpCall .background url, .spanEnd "getLocalidade"])

/-- The part of `*gin.Context` the handler reads: `c.Query(key)`. -/
structure Context where
  Query : Bytes → Bytes

def climaHandler (up : Upstream) (c : Context) : Response × List Event :=
  let cep := c.Query (utf8 "cep")
  if cep.length ≠ 8 ∨ ¬ isNumeric cep then
    (⟨StatusUnprocessableEntity, H "message" "invalid zipcode"⟩, [])
  else
    match getLocalidade up cep with
    | (.error _, ev) => (⟨StatusNotFound, H "message" "cannot find zipcode"⟩, ev)
    | (.ok localidade, ev) =>
      match getTemperatura up localidade with
      | (.error _, ev2) =>
        (⟨StatusInternalServerError, H "message" "error fetching weather data"⟩, ev ++ ev2)
      | (.ok (tempC, tempF, tempK), ev2) =>
        (⟨StatusOK, .obj [("temp_C", .num tempC), ("temp_F", .num tempF), ("temp_K", .num tempK)]⟩,
          ev ++ ev2)

/-! ## The backend on the wire

The frontend always requests the path `/temperatura` of the backend; what is
modelled is the answer of the backend to `GET /temperatura?<rawQuery>`, with
`rawQuery` the bytes that follow the first `?` of the request target. -/

/-- Function `strings.Cut` with a one-element separator: the text before the
first `sep` and the text after it (empty when `sep` does not occur). -/
def cutAt {α : Type} [DecidableEq α] (sep : α) (s : List α) : List α × List α :=
  (s.takeWhile (fun x => x ≠ sep), (s.dropWhile (fun x => x ≠ sep)).drop 1)

/-- Function `strings.Split` with a one-byte separator. -/
def segments (sep : Byte) : Bytes → List Bytes
  | [] => [[]]
  | b :: rest =>
    if b = sep then [] :: segments sep rest
    else
      match segments sep rest with
      | [] => [[b]]
      | seg :: more => (b :: seg) :: more

def unhex (b : Byte) : Option Nat :=
  if 48 ≤ b.val ∧ b.val ≤ 57 then some (b.val - 48)
  else if 97 ≤ b.val ∧ b.val ≤ 102 then some (b.val - 97 + 10)
  else if 65 ≤ b.val ∧ b.val ≤ 70 then some (b.val - 65 + 10)
  else none

/-- Function `url.QueryUnescape`: `%XX` becomes the byte `XX`, `+` becomes a
space, a `%` not followed by two hexadecimal digits is an error (`none`). -/
def QueryUnescape : Bytes → Option Bytes
  | [] => some []
  | c :: rest =>
    if c.val = 37 then
      match rest with
      | a :: b :: rest2 =>
        match unhex a, unhex b, QueryUnescape rest2 with
        | some x, some y, some t => some (Fin.ofNat (16 * x + y) :: t)
        | _, _, _ => none
      | _ => none
    else
      match QueryUnescape rest with
      | some t => some ((if c.val = 43 then (32 : Byte) else c) :: t)
      | none => none

/-- Function `url.ParseQuery`, errors ignored as `URL.Query()` does: the
segments between `&` in order; a segment with a `;`, an empty segment, and a
segment whose key or value does not unescape, are dropped. -/
def parseQuery (query : Bytes) : List (Bytes × Bytes) :=
  (segments 38 query).filterMap fun seg =>
    if (59 : Byte) ∈ seg then none
    else if seg = [] then none
    else
      match QueryUnescape (cutAt 61 seg).1, QueryUnescape (cutAt 61 seg).2 with
      | some k, some v => some (k, v)
      | _, _ => none

/-- `c.Query(key)` of gin for a request with raw query `rawQuery`: the first
value of `key`, or the empty string. -/
def ginQuery (rawQuery : Bytes) (key : Bytes) : Bytes :=
  match (parseQuery rawQuery).find? (fun kv => kv.1 = key) with
  | some kv => kv.2
  | none => []

/-- `stringContainsCTLByte`. -/
def containsCTLByte (s : Bytes) : Bool := s.any fun b => b.val < 32 || b.val == 127

/-- The backend's answer to `GET /temperatura?<rawQuery>`.  A space in the
request target makes the request line malformed and a control byte makes
`url.ParseRequestURI` fail: `net/http` answers 400 with a text body and the
handler does not run.  Otherwise gin runs `climaHandler`. -/
def backendServe (up : Upstream) (rawQuery : Bytes) : HttpResult × List Event :=
  if (32 : Byte) ∈ rawQuery ∨ containsCTLByte rawQuery then (.response 400 .malformed, [])
  else
    let r := climaHandler up ⟨ginQuery rawQuery⟩
    (.response r.1.status (.json r.1.body), r.2)

/-! ## The frontend: `cepHandler` -/

structure CepInputDTO where
  CEP : String

structure ServicebResponse where
  City : String
  TempC : ℚ
  TempF : ℚ
  TempK : ℚ

/-- `CepOutputDTO` has the fields of `ServicebResponse`; the conversion
`CepOutputDTO(servicebResponse)` copies them. -/
structure CepOutputDTO where
  City : String
  TempC : ℚ
  TempF : ℚ
  TempK : ℚ

def decodeCepInputFields : List (String × Json) → CepInputDTO → Option CepInputDTO
  | [], r => some r
  | (k, v) :: rest, r =>
    if keyMatches k "cep" then
      match v with
      | .str s => decodeCepInputFields rest ⟨s⟩
      | .null => decodeCepInputFields rest r
      | _ => none
    else decodeCepInputFields rest r

def decodeCepInput : Json → Option CepInputDTO
  | .null => some ⟨""⟩
  | .obj fields => decodeCepInputFields fields ⟨""⟩
  | _ => none

/-- `c.ShouldBindJSON(&cepInputDTO)`: decode the body, then validate the tag
`binding:"required,min=8"` (`required`: not the empty string; `min=8` on a
string: at least 8 code points).  `none` is `err != nil`. -/
def ShouldBindJSON (payload : Body) : Option CepInputDTO :=
  match payload with
  | .unreadable => none
  | .malformed => none
  | .json v =>
    match decodeCepInput v with
    | none => none
    | some dto =>
      if dto.CEP = "" then none
      else if dto.CEP.length < 8 then none
      else some dto

def decodeServicebFields : List (String × Json) → ServicebResponse → Option ServicebResponse
  | [], r => some r
  | (k, v) :: rest, r =>
    if keyMatches k "city" then
      match v with
      | .str s => decodeServicebFields rest { r with City := s }
      | .null => decodeServicebFields rest r
      | _ => none
    else if keyMatches k "temp_C" then
      match v with
      | .num q => decodeServicebFields rest { r with TempC := q }
      | .null => decodeServicebFields rest r
      | _ => none
    else if keyMatches k "temp_F" then
      match v with
      | .num q => decodeServicebFields rest { r with TempF := q }
      | .null => decodeServicebFields rest r
      | _ => none
    else if keyMatches k "temp_K" then
      match v with
      | .num q => decodeServicebFields rest { r with TempK := q }
      | .null => decodeServicebFields rest r
      | _ => none
    else decodeServicebFields rest r

/-- `json.NewDecoder(resp.Body).Decode(&servicebResponse)` on a parsed body. -/
def decodeServiceb : Json → Option ServicebResponse
  | .null => some ⟨"", 0, 0, 0⟩
  | .obj fields => decodeServicebFields fields ⟨"", 0, 0, 0⟩
  | _ => none

/-- What `c.JSON` writes for a `CepOutputDTO`. -/
def CepOutputDTO.toJson (o : CepOutputDTO) : Json :=
  .obj [("city", .str o.City), ("temp_C", .num o.TempC), ("temp_F", .num o.TempF),
    ("temp_K", .num o.TempK)]

/-- The reasons `url.Parse` fails on the URLs of `cepHandler`. -/
inductive ParseFailure where
  | controlCharacter
  | escape (s : String)

/-- A `*url.Error`. -/
structure UrlError where
  Op : String
  URL : String
  Err : ParseFailure

/-- `err.Error()` of a `*url.Error`, `fmt.Sprintf("%s %q: %s", Op, URL, Err)`;
`quote` is `strconv.Quote`. -/
def UrlError.Error (quote : String → String) (e : UrlError) : String :=
  e.Op ++ " " ++ quote e.URL ++ ": " ++
    match e.Err with
    | .controlCharacter => "net/url: invalid control character in URL"
    | .escape s => "invalid URL escape " ++ quote s

/-- An outbound `*http.Request`: its context, and its URL as `url.Parse` left
it (`Location` is scheme, host and path). -/
structure Request where
  ctx : Ctx
  Method : String
  Location : String
  RawQuery : String

def ishex (c : Char) : Bool :=
  ('0' ≤ c && c ≤ '9') || ('a' ≤ c && c ≤ 'f') || ('A' ≤ c && c ≤ 'F')

/-- The check `unescape(frag, encodeFragment)` makes: the first `%` that is
not followed by two hexadecimal digits, with at most two characters after it
(Go cuts this text by bytes; it only appears in the text of the error). -/
def badEscape : List Char → Option (List Char)
  | [] => none
  | c :: rest =>
    if c = '%' then
      match rest with
      | a :: b :: rest2 => if ishex a && ishex b then badEscape rest2 else some [c, a, b]
      | _ => some (c :: rest)
    else badEscape rest

def containsCTL (s : List Char) : Bool := s.any fun c => c.toNat < 32 || c.toNat == 127

/-- `http.NewRequestWithContext(ctx, method, url, nil)`, which fails exactly
when `url.Parse(url)` does.  `url.Parse` cuts the fragment at the first `#`,
rejects a control character before it, splits the rest at the first `?`, and
rejects a fragment with a malformed escape.  The text before the first `?` is
not validated here: in `cepHandler` it is the constant
`http://service-b:8081/temperatura`, which `url.Parse` accepts. -/
def NewRequestWithContext (ctx : Ctx) (method : String) (url : String) :
    Except UrlError Request :=
  let u := (cutAt '#' url.toList).1
  let frag := (cutAt '#' url.toList).2
  if containsCTL u then .error ⟨"parse", String.mk u, .controlCharacter⟩
  else
    match badEscape frag with
    | some s => .error ⟨"parse", url, .escape (String.mk s)⟩
    | none => .ok ⟨ctx, method, String.mk (cutAt '?' u).1, String.mk (cutAt '?' u).2⟩

/-- The world of the frontend: what `client.Do(req)` returns, and
`strconv.Quote` (used by the text of a `*url.Error`). -/
structure Frontend where
  roundTrip : Request → HttpResult
  Quote : String → String

def cepHandler (w : Frontend) (payload : Body) : Response × List Event :=
  match ShouldBindJSON payload with
  | none => (⟨StatusUnprocessableEntity, H "message" "invalid zipcode"⟩, [])
  | some cepInputDTO =>
    let url := "http://service-b:8081/temperatura?cep=" ++ cepInputDTO.CEP
    match NewRequestWithContext .request "GET" url with
    | .error err => (⟨StatusInternalServerError, H "error" (err.Error w.Quote)⟩, [])
    | .ok req =>
      let ev := [Event.httpCall req.ctx (utf8 (req.Location ++ "?" ++ req.RawQuery))]
      match w.roundTrip req with
      | .transportError =>
        (⟨StatusInternalServerError, H "message" "internal server error"⟩, ev)
      | .response status body =>
        if status ≠ StatusOK then
          (⟨StatusInternalServerError, H "message" "internal server error"⟩, ev)
        else
          match body with
          | .unreadable => (⟨StatusInternalServerError, H "message" "internal server error"⟩, ev)
          | .malformed => (⟨StatusInternalServerError, H "message" "internal server error"⟩, ev)
          | .json v =>
            match decodeServiceb v with
            | none => (⟨StatusInternalServerError, H "message" "internal server error"⟩, ev)
            | some servicebResponse =>
              let cepOutputDTO : CepOutputDTO :=
                ⟨servicebResponse.City, servicebResponse.TempC, servicebResponse.TempF,
                  servicebResponse.TempK⟩
              (⟨StatusOK, cepOutputDTO.toJson⟩, ev)

/-! ## The two services together -/

/-- The frontend's world when its backend is `climaHandler` behind
`service-b:8081` with upstream world `up`. -/
def system (up : Upstream) (quote : String → String) : Frontend where
  roundTrip := fun req => (backendServe up (utf8 req.RawQuery)).1
  Quote := quote

/-- The value `climaHandler` reads with `c.Query("cep")` when the frontend
forwards the postal code `s`; `none` when the request cannot be built or does
not reach the handler. -/
def backendReads (s : String) : Option Bytes :=
  match NewRequestWithContext .request "GET" ("http://service-b:8081/temperatura?cep=" ++ s) with
  | .error _ => none
  | .ok req =>
    if (32 : Byte) ∈ utf8 req.RawQuery ∨ containsCTLByte (utf8 req.RawQuery) then none
    else some (ginQuery (utf8 req.RawQuery) (utf8 "cep"))

/-! ## float64

The reading of the two services in which a `float64` is a `float64`: decoding
a JSON number rounds it and fails when it is out of range, arithmetic rounds
and can overflow to an infinity, and `c.JSON` cannot write a value that is not
finite.  (The definitions above compute with exact rationals; they are the
reading of the statements made over exact arithmetic.) -/

/-- A `float64`: the finite value `m * 2^e`, an infinity, or a NaN.  Finite
values are kept in the form rounding produces: `2^52 ≤ |m| < 2^53` and
`-1074 ≤ e ≤ 971` for a normal number, `|m| < 2^52` and `e = -1074` for a
subnormal one, and `m = 0`, `e = 0` for zero (the sign of a zero is not
kept). -/
inductive F64 where
  | finite (m : Int) (e : Int)
  | posInf
  | negInf
  | nan
deriving DecidableEq

/-- Number of binary digits of `n` (`fuel` bounds the recursion; `bitLen n n`
is the length of `n`). -/
def bitLen : Nat → Nat → Nat
  | 0, _ => 0
  | fuel + 1, n => if n = 0 then 0 else bitLen fuel (n / 2) + 1

/-- Numerator and denominator of `n / d * 2^(-e)`. -/
def scaled (n d : Nat) (e : Int) : Nat × Nat :=
  if e ≥ 0 then (n, d * 2 ^ e.toNat) else (n * 2 ^ (-e).toNat, d)

/-- The `float64` magnitude nearest to `n / d` (with `d > 0`), ties to the
even mantissa, as mantissa and exponent; `none` when the nearest value is
beyond the largest `float64` (overflow). -/
def roundMag (n d : Nat) : Option (Nat × Int) :=
  if n = 0 then some (0, 0)
  else
    let e0 : Int := (bitLen n n : Int) - (bitLen d d : Int) - 53
    let e1 : Int := if (scaled n d (e0 + 1)).1 / (scaled n d (e0 + 1)).2 ≥ 2 ^ 52 then e0 + 1 else e0
    let e : Int := if e1 < -1074 then -1074 else e1
    let q := (scaled n d e).1 / (scaled n d e).2
    let r := (scaled n d e).1 % (scaled n d e).2
    let m := if 2 * r < (scaled n d e).2 then q else if 2 * r > (scaled n d e).2 then q + 1
      else q + q % 2
    if m = 0 then some (0, 0)
    else if m = 2 ^ 53 then (if e + 1 > 971 then none else some (2 ^ 52, e + 1))
    else if e > 971 then none
    else some (m, e)

/-- Rounding of the rational `num / den` to `float64`. -/
def F64.round (num : Int) (den : Nat) : F64 :=
  match roundMag num.natAbs den with
  | some (m, e) => .finite (if num < 0 then - (m : Int) else (m : Int)) e
  | none => if num < 0 then .negInf else .posInf

/-- The `float64` a JSON number or a constant of the program denotes. -/
def F64.ofRat (q : ℚ) : F64 := F64.round q.num q.den

/-- Rounding of the exact value `m * 2^e`. -/
def F64.ofDyadic (m e : Int) : F64 :=
  if e ≥ 0 then F64.round (m * 2 ^ e.toNat) 1 else F64.round m (2 ^ (-e).toNat)

def F64.isFinite : F64 → Bool
  | .finite _ _ => true
  | _ => false

/-- The sign of a value that is not a NaN: `true` for negative. -/
def F64.isNeg : F64 → Bool
  | .finite m _ => decide (m < 0)
  | .negInf => true
  | _ => false

def F64.isZero : F64 → Bool
  | .finite m _ => decide (m = 0)
  | _ => false

def F64.inf (neg : Bool) : F64 := if neg then .negInf else .posInf

/-- `x * y` on `float64`. -/
def F64.mul (x y : F64) : F64 :=
  match x, y with
  | .nan, _ => .nan
  | _, .nan => .nan
  | .finite m1 e1, .finite m2 e2 => F64.ofDyadic (m1 * m2) (e1 + e2)
  | x, y => if x.isZero || y.isZero then .nan else F64.inf (x.isNeg != y.isNeg)

/-- The exact sum `m1 * 2^e1 + m2 * 2^e2` as mantissa and exponent. -/
def dyadicAdd (m1 e1 m2 e2 : Int) : Int × Int :=
  if e1 ≤ e2 then (m1 + m2 * 2 ^ (e2 - e1).toNat, e1) else (m1 * 2 ^ (e1 - e2).toNat + m2, e2)

/-- `x + y` on `float64`. -/
def F64.add (x y : F64) : F64 :=
  match x, y with
  | .nan, _ => .nan
  | _, .nan => .nan
  | .finite m1 e1, .finite m2 e2 =>
    F64.ofDyadic (dyadicAdd m1 e1 m2 e2).1 (dyadicAdd m1 e1 m2 e2).2
  | .posInf, .negInf => .nan
  | .negInf, .posInf => .nan
  | .finite _ _, y => y
  | x, _ => x

/-- The fused `x*y + z`: one rounding of the exact result. -/
def F64.fma (x y z : F64) : F64 :=
  match x, y, z with
  | .finite m1 e1, .finite m2 e2, .finite m3 e3 =>
    F64.ofDyadic (dyadicAdd (m1 * m2) (e1 + e2) m3 e3).1 (dyadicAdd (m1 * m2) (e1 + e2) m3 e3).2
  | .finite _ _, .finite _ _, z => z
  | x, y, z => (x.mul y).add z

/-- What the `float64` reading takes from outside the repository.
`fusedMultiplyAdd`: whether the compiler fuses `x*y + z` into one operation
(the Go specification allows it; it is done on arm64 and not on amd64).
`formatFloat`: the number denoted by the text `encoding/json` writes for a
finite `float64` (the shortest decimal that reads back as that `float64`; a
statement that needs a value to read back assumes it for that value).  `renderErrorStatus`: the status gin answers with when
`c.JSON` cannot encode its argument and nothing is written (200 where gin
records the error, 500 where it panics into the recovery handler). -/
structure Runtime where
  fusedMultiplyAdd : Bool
  formatFloat : F64 → ℚ
  renderErrorStatus : Nat

/-- What a handler leaves on the wire: a status and, when `c.JSON` could
encode its argument, a body. -/
structure Written where
  status : Nat
  body : Option Json

/-- `encoding/json` on a `float64`: an infinity or a NaN is an
`UnsupportedValueError`. -/
def Runtime.encodeFloat (rt : Runtime) (x : F64) : Option Json :=
  if x.isFinite then some (.num (rt.formatFloat x)) else none

/-- Storing a JSON number in a `float64` field: `strconv.ParseFloat` rounds
it, and a number beyond the range of `float64` is an error. -/
def F64.parse (q : ℚ) : Option F64 :=
  if (F64.ofRat q).isFinite then some (F64.ofRat q) else none

/-- Storing a JSON value in a `string` field: a string is stored, `null`
leaves the field, anything else is an error. -/
def storeString (cur : String) : Json → Option String
  | .str s => some s
  | .null => some cur
  | _ => none

/-- Storing a JSON value in a `float64` field: a number in range is stored
rounded, `null` leaves the field, anything else is an error. -/
def storeFloat64 (cur : F64) : Json → Option F64
  | .num q => F64.parse q
  | .null => some cur
  | _ => none

structure WeatherCurrent64 where
  TempC : F64

structure WeatherResponse64 where
  Current : WeatherCurrent64

def decodeCurrentFields64 : List (String × Json) → WeatherCurrent64 → Option WeatherCurrent64
  | [], r => some r
  | (k, v) :: rest, r =>
    if keyMatches k "temp_c" then
      match storeFloat64 r.TempC v with
      | some x => decodeCurrentFields64 rest ⟨x⟩
      | none => none
    else decodeCurrentFields64 rest r

def decodeCurrent64 (v : Json) (r : WeatherCurrent64) : Option WeatherCurrent64 :=
  match v with
  | .null => some r
  | .obj fields => decodeCurrentFields64 fields r
  | _ => none

def decodeWeatherFields64 : List (String × Json) → WeatherResponse64 → Option WeatherResponse64
  | [], r => some r
  | (k, v) :: rest, r =>
    if keyMatches k "current" then
      match decodeCurrent64 v r.Current with
      | some cur => decodeWeatherFields64 rest ⟨cur⟩
      | none => none
    else decodeWeatherFields64 rest r

/-- Function `json.Unmarshal(body, &openWeatherResponse)` on a parsed body,
with `TempC` a `float64`. -/
def unmarshalWeather64 : Json → Option WeatherResponse64
  | .null => some ⟨⟨.finite 0 0⟩⟩
  | .obj fields => decodeWeatherFields64 fields ⟨⟨.finite 0 0⟩⟩
  | _ => none

/-- `tempC*1.8 + 32` on `float64`, the constants rounded to `float64`: one
rounding when the compiler fuses the two operations, two otherwise. -/
def fahrenheit64 (rt : Runtime) (tempC : F64) : F64 :=
  if rt.fusedMultiplyAdd then F64.fma tempC (F64.ofRat 1.8) (F64.ofRat 32)
  else (tempC.mul (F64.ofRat 1.8)).add (F64.ofRat 32)

/-- `tempC + 273.15` on `float64`. -/
def kelvin64 (tempC : F64) : F64 := tempC.add (F64.ofRat 273.15)

def getTemperatura64 (rt : Runtime) (up : Upstream) (localidade : String) :
    Except GoError (F64 × F64 × F64) × List Event :=
  let url := weatherURL up.weatherAPIKey (QueryEscape (utf8 localidade))
  let result : Except GoError (F64 × F64 × F64) :=
    match up.get url with
    | .transportError => .error .transport
    | .response status body =>
      if status ≠ 200 then .error (.message "error fetching weather data")
      else
        match body with
        | .unreadable => .error .read
        | .malformed => .error .decode
        | .json v =>
          match unmarshalWeather64 v with
          | none => .error .decode
          | some openWeatherResponse =>
            let tempC := openWeatherResponse.Current.TempC
            let tempF := fahrenheit64 rt tempC
            let tempK := kelvin64 tempC
            .ok (tempC, tempF, tempK)
  (result, [.spanStart "getTemperatura", .httpCall .background url, .spanEnd "getTemperatura"])

/-- `c.JSON(http.StatusOK, response)` for the map of the three temperatures:
the keys in sorted order, or nothing written when a value cannot be encoded. -/
def writeTemperatures (rt : Runtime) (tempC tempF tempK : F64) : Written :=
  match rt.encodeFloat tempC, rt.encodeFloat tempF, rt.encodeFloat tempK with
  | some a, some b, some d =>
    ⟨StatusOK, some (.obj [("temp_C", a), ("temp_F", b), ("temp_K", d)])⟩
  | _, _, _ => ⟨rt.renderErrorStatus, none⟩

def climaHandler64 (rt : Runtime) (up : Upstream) (c : Context) : Written × List Event :=
  let cep := c.Query (utf8 "cep")
  if cep.length ≠ 8 ∨ ¬ isNumeric cep then
    (⟨StatusUnprocessableEntity, some (H "message" "invalid zipcode")⟩, [])
  else
    match getLocalidade up cep with
    | (.error _, ev) => (⟨StatusNotFound, some (H "message" "cannot find zipcode")⟩, ev)
    | (.ok localidade, ev) =>
      match getTemperatura64 rt up localidade with
      | (.error _, ev2) =>
        (⟨StatusInternalServerError, some (H "message" "error fetching weather data")⟩,
          ev ++ ev2)
      | (.ok (tempC, tempF, tempK), ev2) => (writeTemperatures rt tempC tempF tempK, ev ++ ev2)

/-- The body a client reads from what a handler left on the wire: an empty
body is not JSON. -/
def Written.wire (r : Written) : HttpResult :=
  match r.body with
  | some v => .response r.status (.json v)
  | none => .response r.status .malformed

/-- The backend's answer to `GET /temperatura?<rawQuery>`, `float64` reading. -/
def backendServe64 (rt : Runtime) (up : Upstream) (rawQuery : Bytes) : HttpResult × List Event :=
  if (32 : Byte) ∈ rawQuery ∨ containsCTLByte rawQuery then (.response 400 .malformed, [])
  else ((climaHandler64 rt up ⟨ginQuery rawQuery⟩).1.wire, (climaHandler64 rt up ⟨ginQuery rawQuery⟩).2)

structure ServicebResponse64 where
  City : String
  TempC : F64
  TempF : F64
  TempK : F64

/-- Decoding one entry of the backend's body into the field its key selects. -/
def storeServicebField64 (r : ServicebResponse64) (k : String) (v : Json) :
    Option ServicebResponse64 :=
  if keyMatches k "city" then (storeString r.City v).map fun s => { r with City := s }
  else if keyMatches k "temp_C" then (storeFloat64 r.TempC v).map fun x => { r with TempC := x }
  else if keyMatches k "temp_F" then (storeFloat64 r.TempF v).map fun x => { r with TempF := x }
  else if keyMatches k "temp_K" then (storeFloat64 r.TempK v).map fun x => { r with TempK := x }
  else some r

def decodeServicebFields64 :
    List (String × Json) → ServicebResponse64 → Option ServicebResponse64
  | [], r => some r
  | (k, v) :: rest, r =>
    match storeServicebField64 r k v with
    | some r2 => decodeServicebFields64 rest r2
    | none => none

/-- `json.NewDecoder(resp.Body).Decode(&servicebResponse)` on a parsed body,
with `float64` fields. -/
def decodeServiceb64 : Json → Option ServicebResponse64
  | .null => some ⟨"", .finite 0 0, .finite 0 0, .finite 0 0⟩
  | .obj fields => decodeServicebFields64 fields ⟨"", .finite 0 0, .finite 0 0, .finite 0 0⟩
  | _ => none

/-- `c.JSON(http.StatusOK, cepOutputDTO)`. -/
def writeCepOutput (rt : Runtime) (r : ServicebResponse64) : Written :=
  match rt.encodeFloat r.TempC, rt.encodeFloat r.TempF, rt.encodeFloat r.TempK with
  | some a, some b, some d =>
    ⟨StatusOK, some (.obj [("city", .str r.City), ("temp_C", a), ("temp_F", b), ("temp_K", d)])⟩
  | _, _, _ => ⟨rt.renderErrorStatus, none⟩

def cepHandler64 (rt : Runtime) (w : Frontend) (payload : Body) : Written × List Event :=
  match ShouldBindJSON payload with
  | none => (⟨StatusUnprocessableEntity, some (H "message" "invalid zipcode")⟩, [])
  | some cepInputDTO =>
    let url := "http://service-b:8081/temperatura?cep=" ++ cepInputDTO.CEP
    match NewRequestWithContext .request "GET" url with
    | .error err => (⟨StatusInternalServerError, some (H "error" (err.Error w.Quote))⟩, [])
    | .ok req =>
      let ev := [Event.httpCall req.ctx (utf8 (req.Location ++ "?" ++ req.RawQuery))]
      match w.roundTrip req with
      | .transportError =>
        (⟨StatusInternalServerError, some (H "message" "internal server error")⟩, ev)
      | .response status body =>
        if status ≠ StatusOK then
          (⟨StatusInternalServerError, some (H "message" "internal server error")⟩, ev)
        else
          match body with
          | .unreadable =>
            (⟨StatusInternalServerError, some (H "message" "internal server error")⟩, ev)
          | .malformed =>
            (⟨StatusInternalServerError, some (H "message" "internal server error")⟩, ev)
          | .json v =>
            match decodeServiceb64 v with
            | none =>
              (⟨StatusInternalServerError, some (H "message" "internal server error")⟩, ev)
            | some servicebResponse => (writeCepOutput rt servicebResponse, ev)

/-- The frontend's world when its backend is `climaHandler64` behind
`service-b:8081` with upstream world `up`. -/
def system64 (rt : Runtime) (up : Upstream) (quote : String → String) : Frontend where
  roundTrip := fun req => (backendServe64 rt up (utf8 req.RawQuery)).1
  Quote := quote

/-! ## Events of the resolvers, and worlds used at concrete inputs -/

/-- The events of one run of `getLocalidade`. -/
def localidadeEvents (cep : Bytes) : List Event :=
  [.spanStart "getLocalidade", .httpCall .background (viaCEPURL cep), .spanEnd "getLocalidade"]

/-- The events of one run of `getTemperatura`. -/
def temperaturaEvents (up : Upstream) (localidade : String) : List Event :=
  [.spanStart "getTemperatura",
    .httpCall .background (weatherURL up.weatherAPIKey (QueryEscape (utf8 localidade))),
    .spanEnd "getTemperatura"]

/-- An upstream world: the directory lookup of `01001000` answers status 200
with place `São Paulo`; every other URL answers status 200 with 25 °C. -/
def upSaoPaulo : Upstream where
  get := fun url =>
    if url = viaCEPURL (utf8 "01001000") then
      .response 200 (.json (.obj [("localidade", .str "São Paulo")]))
    else .response 200 (.json (.obj [("current", .obj [("temp_c", .num 25)])]))
  weatherAPIKey := utf8 "key"

/-- An upstream world: the directory lookup of `01001000` answers status 200
with a body that has no `localidade` (what the directory sends for an unknown
code); every other URL answers status 200 with 25 °C. -/
def upUnknownCode : Upstream where
  get := fun url =>
    if url = viaCEPURL (utf8 "01001000") then .response 200 (.json (.obj [("erro", .bool true)]))
    else .response 200 (.json (.obj [("current", .obj [("temp_c", .num 25)])]))
  weatherAPIKey := utf8 "key"

/-- An upstream world: the directory lookup answers `São Paulo`, the weather
lookup answers status 503 with a JSON body that carries a temperature. -/
def upWeatherDown : Upstream where
  get := fun url =>
    if url = viaCEPURL (utf8 "01001000") then
      .response 200 (.json (.obj [("localidade", .str "São Paulo")]))
    else .response 503 (.json (.obj [("current", .obj [("temp_c", .num 25)])]))
  weatherAPIKey := utf8 "key"

/-- An upstream world: the directory lookup of `01001000` answers status 500
with a body naming `São Paulo`; every other URL answers status 200 with 25 °C. -/
def upDirectory500 : Upstream where
  get := fun url =>
    if url = viaCEPURL (utf8 "01001000") then
      .response 500 (.json (.obj [("localidade", .str "São Paulo")]))
    else .response 200 (.json (.obj [("current", .obj [("temp_c", .num 25)])]))
  weatherAPIKey := utf8 "key"

/-- The inbound request `GET /temperatura?cep=01001000` as gin presents it. -/
def ctx01001000 : Context := ⟨fun key => if key = utf8 "cep" then utf8 "01001000" else []⟩

/-- Characters that pass through the hop untouched: no ASCII control
character, no space, and none of `#`, `&`, `;`, `%`, `+`. -/
def hopSafe (c : Char) : Prop :=
  32 < c.toNat ∧ c.toNat ≠ 127 ∧ c.toNat ≠ 35 ∧ c.toNat ≠ 38 ∧ c.toNat ≠ 59 ∧ c.toNat ≠ 37 ∧
    c.toNat ≠ 43

/-- A rendering of `strconv.Quote` for worlds used at concrete inputs: the
text between double quotes. -/
def quoteLit (s : String) : String := "\"" ++ s ++ "\""

/-- A frontend world whose backend never answers (transport error). -/
def backendDown : Frontend where
  roundTrip := fun _ => .transportError
  Quote := quoteLit

/-- The request body `{"cep": s}`. -/
def cepPayload (s : String) : Body := .json (.obj [("cep", .str s)])

/-- An upstream world: the directory lookup of `01001000` answers `São Paulo`,
the weather lookup answers status 200 with the temperature `1e308`. -/
def upScorching : Upstream where
  get := fun url =>
    if url = viaCEPURL (utf8 "01001000") then
      .response 200 (.json (.obj [("localidade", .str "São Paulo")]))
    else .response 200 (.json (.obj [("current", .obj [("temp_c", .num 1e308)])]))
  weatherAPIKey := utf8 "key"

/-- The text Go writes for three values: `25`, `77` and `298.15`. -/
def formatSample (x : F64) : ℚ :=
  if x = .finite 7036874417766400 (-48) then 25
  else if x = .finite 5418393301680128 (-46) then 77
  else if x = .finite 5245110269142630 (-44) then 298.15
  else 0

/-- A runtime without fused multiply-add, on which gin records a rendering
error and answers with the status already set. -/
def runtimeUnfused : Runtime := ⟨false, formatSample, 200⟩

/-- A runtime with fused multiply-add, on which gin panics on a rendering
error and the recovery handler answers 500. -/
def runtimeFused : Runtime := ⟨true, formatSample, 500⟩

/-- An upstream world: the directory lookup of `01001000` answers `São Paulo`,
the weather lookup answers status 200 with the temperature `1e400`, which is
beyond the range of `float64`. -/
def upOutOfRange : Upstream where
  get := fun url =>
    if url = viaCEPURL (utf8 "01001000") then
      .response 200 (.json (.obj [("localidade", .str "São Paulo")]))
    else .response 200 (.json (.obj [("current", .obj [("temp_c", .num 1e400)])]))
  weatherAPIKey := utf8 "key"

/-! ## Lemmas on the decoders and on `Atoi` -/

theorem atoiLoop_isSome (s : Bytes) (n : Nat) :
    (atoiLoop s n).isSome = true ↔ ∀ b ∈ s, isDigit b := by
  induction s generalizing n with
  | nil => simp [atoiLoop]
  | cons ch rest ih =>
    simp only [atoiLoop, List.mem_cons, forall_eq_or_imp]
    by_cases h : (ch.val + 256 - 48) % 256 > 9
    · simp only [h, if_true]
      simp [isDigit]
      intro h1 h2
      omega
    · simp only [h, if_false, ih]
      have : isDigit ch := by
        unfold isDigit
        have := ch.isLt
        omega
      simp [this]

/-- A string of 8 bytes is numeric exactly when it is 8 digits, or a sign
followed by 7 digits. -/
theorem isNumeric_length_eight (s : Bytes) (h : s.length = 8) :
    isNumeric s = true ↔
      ((∀ b ∈ s, isDigit b) ∨
        ∃ sgn rest, s = sgn :: rest ∧ (sgn.val = 43 ∨ sgn.val = 45) ∧ ∀ b ∈ rest, isDigit b) := by
  match s, h with
  | c :: rest, h =>
    have hlen : rest.length = 7 := by simpa using h
    have h19 : (c :: rest).length < 19 := by simp [hlen]
    unfold isNumeric Atoi
    simp only [h19, if_true]
    by_cases hs : c.val = 45 ∨ c.val = 43
    · have hnd : ¬ isDigit c := by unfold isDigit; omega
      have h1 : ¬ (rest.length < 1) := by omega
      simp only [hs, if_true, h1, and_false, if_false]
      have key := atoiLoop_isSome rest 0
      constructor
      · intro hsome
        right
        refine ⟨c, rest, rfl, by omega, ?_⟩
        apply key.mp
        cases hl : atoiLoop rest 0 with
        | none => simp [hl] at hsome
        | some n => rfl
      · intro hr
        rcases hr with hall | ⟨sgn, rest2, heq, _, hall⟩
        · exact absurd (hall c (List.mem_cons_self _ _)) hnd
        · have hrest : rest2 = rest := by injection heq with _ h2; exact h2.symm
          subst hrest
          have := key.mpr hall
          cases hl : atoiLoop rest2 0 with
          | none => simp [hl] at this
          | some n => simp
    · simp only [hs, if_false, false_and]
      have key := atoiLoop_isSome (c :: rest) 0
      constructor
      · intro hsome
        left
        apply key.mp
        cases hl : atoiLoop (c :: rest) 0 with
        | none => simp [hl] at hsome
        | some n => rfl
      · intro hr
        rcases hr with hall | ⟨sgn, rest2, heq, hsgn, _⟩
        · have := key.mpr hall
          cases hl : atoiLoop (c :: rest) 0 with
          | none => simp [hl] at this
          | some n => simp
        · have : sgn = c := by injection heq with h1 _; exact h1.symm
          subst this
          omega

theorem isNumeric_of_digits (s : Bytes) (h : s.length = 8) (hd : ∀ b ∈ s, isDigit b) :
    isNumeric s = true :=
  (isNumeric_length_eight s h).mpr (Or.inl hd)


/-! ## The shape of the backend handler -/

theorem getLocalidade_snd (up : Upstream) (cep : Bytes) :
    (getLocalidade up cep).2 = localidadeEvents cep := rfl

theorem getTemperatura_snd (up : Upstream) (localidade : String) :
    (getTemperatura up localidade).2 = temperaturaEvents up localidade := rfl

theorem climaHandler_invalid (up : Upstream) (c : Context)
    (h : (c.Query (utf8 "cep")).length ≠ 8 ∨ isNumeric (c.Query (utf8 "cep")) ≠ true) :
    climaHandler up c = (⟨422, H "message" "invalid zipcode"⟩, []) := by
  unfold climaHandler
  have h2 : (c.Query (utf8 "cep")).length ≠ 8 ∨ ¬ isNumeric (c.Query (utf8 "cep")) = true := h
  simp only [h2, if_true, StatusUnprocessableEntity]

theorem climaHandler_notFound (up : Upstream) (c : Context) (e : GoError)
    (hlen : (c.Query (utf8 "cep")).length = 8) (hnum : isNumeric (c.Query (utf8 "cep")) = true)
    (hloc : (getLocalidade up (c.Query (utf8 "cep"))).1 = .error e) :
    climaHandler up c =
      (⟨404, H "message" "cannot find zipcode"⟩, localidadeEvents (c.Query (utf8 "cep"))) := by
  have hsnd := getLocalidade_snd up (c.Query (utf8 "cep"))
  unfold climaHandler
  simp only [hlen, hnum, ne_eq, not_true_eq_false, or_self, if_false]
  rcases hL : getLocalidade up (c.Query (utf8 "cep")) with ⟨r, ev⟩
  rw [hL] at hloc hsnd
  simp only at hloc hsnd
  subst hloc hsnd
  simp only [StatusNotFound]

theorem climaHandler_weatherError (up : Upstream) (c : Context) (p : String) (e : GoError)
    (hlen : (c.Query (utf8 "cep")).length = 8) (hnum : isNumeric (c.Query (utf8 "cep")) = true)
    (hloc : (getLocalidade up (c.Query (utf8 "cep"))).1 = .ok p)
    (htemp : (getTemperatura up p).1 = .error e) :
    climaHandler up c =
      (⟨500, H "message" "error fetching weather data"⟩,
        localidadeEvents (c.Query (utf8 "cep")) ++ temperaturaEvents up p) := by
  have hsnd := getLocalidade_snd up (c.Query (utf8 "cep"))
  have hsnd2 := getTemperatura_snd up p
  unfold climaHandler
  simp only [hlen, hnum, ne_eq, not_true_eq_false, or_self, if_false]
  rcases hL : getLocalidade up (c.Query (utf8 "cep")) with ⟨r, ev⟩
  rw [hL] at hloc hsnd
  simp only at hloc hsnd
  subst hloc hsnd
  simp only
  rcases hT : getTemperatura up p with ⟨r2, ev2⟩
  rw [hT] at htemp hsnd2
  simp only at htemp hsnd2
  subst htemp hsnd2
  simp only [StatusInternalServerError]

theorem climaHandler_success (up : Upstream) (c : Context) (p : String) (t : ℚ × ℚ × ℚ)
    (hlen : (c.Query (utf8 "cep")).length = 8) (hnum : isNumeric (c.Query (utf8 "cep")) = true)
    (hloc : (getLocalidade up (c.Query (utf8 "cep"))).1 = .ok p)
    (htemp : (getTemperatura up p).1 = .ok t) :
    climaHandler up c =
      (⟨200, .obj [("temp_C", .num t.1), ("temp_F", .num t.2.1), ("temp_K", .num t.2.2)]⟩,
        localidadeEvents (c.Query (utf8 "cep")) ++ temperaturaEvents up p) := by
  have hsnd := getLocalidade_snd up (c.Query (utf8 "cep"))
  have hsnd2 := getTemperatura_snd up p
  unfold climaHandler
  simp only [hlen, hnum, ne_eq, not_true_eq_false, or_self, if_false]
  rcases hL : getLocalidade up (c.Query (utf8 "cep")) with ⟨r, ev⟩
  rw [hL] at hloc hsnd
  simp only at hloc hsnd
  subst hloc hsnd
  simp only
  rcases hT : getTemperatura up p with ⟨r2, ev2⟩
  rw [hT] at htemp hsnd2
  simp only at htemp hsnd2
  subst htemp hsnd2
  obtain ⟨a, b, d⟩ := t
  simp only [StatusOK]

/-- Once the parameter is valid, the location lookup is started whatever
follows. -/
theorem climaHandler_valid_starts (up : Upstream) (c : Context)
    (hlen : (c.Query (utf8 "cep")).length = 8) (hnum : isNumeric (c.Query (utf8 "cep")) = true) :
    Event.spanStart "getLocalidade" ∈ (climaHandler up c).2 := by
  cases hL : (getLocalidade up (c.Query (utf8 "cep"))).1 with
  | error e =>
    rw [climaHandler_notFound up c e hlen hnum hL]
    simp [localidadeEvents]
  | ok p =>
    cases hT : (getTemperatura up p).1 with
    | error e =>
      rw [climaHandler_weatherError up c p e hlen hnum hL hT]
      simp [localidadeEvents]
    | ok t =>
      rw [climaHandler_success up c p t hlen hnum hL hT]
      simp [localidadeEvents]

/-! ## Decoding the directory body -/

theorem decodeViaCEPFields_empty (fields : List (String × Json))
    (h : ∀ kv ∈ fields, keyMatches kv.1 "localidade" = true → kv.2 = .str "") :
    decodeViaCEPFields fields ⟨""⟩ = some ⟨""⟩ := by
  induction fields with
  | nil => rfl
  | cons kv rest ih =>
    obtain ⟨k, v⟩ := kv
    have hrest : ∀ kv ∈ rest, keyMatches kv.1 "localidade" = true → kv.2 = .str "" :=
      fun kv hkv => h kv (List.mem_cons_of_mem _ hkv)
    unfold decodeViaCEPFields
    by_cases hk : keyMatches k "localidade" = true
    · have hv : v = .str "" := h (k, v) (List.mem_cons_self _ _) hk
      subst hv
      simp only [hk, if_true]
      exact ih hrest
    · simp only [hk, if_false]
      exact ih hrest

theorem getLocalidade_error_of_empty (up : Upstream) (cep : Bytes) (status : Nat)
    (fields : List (String × Json))
    (hget : up.get (viaCEPURL cep) = .response status (.json (.obj fields)))
    (hloc : ∀ kv ∈ fields, keyMatches kv.1 "localidade" = true → kv.2 = .str "") :
    (getLocalidade up cep).1 = .error (.message "localidade não encontrada") := by
  unfold getLocalidade
  simp only [hget, unmarshalViaCEP, decodeViaCEPFields_empty fields hloc, if_true]

theorem getLocalidade_ok (up : Upstream) (cep : Bytes) (status : Nat) (v : Json) (p : String)
    (hget : up.get (viaCEPURL cep) = .response status (.json v))
    (hdec : unmarshalViaCEP v = some ⟨p⟩) (hp : p ≠ "") :
    (getLocalidade up cep).1 = .ok p := by
  unfold getLocalidade
  simp only [hget, hdec, hp, if_false]

/-! ## Cutting strings -/

theorem cutAt_of_not_mem {α : Type} [DecidableEq α] (sep : α) (s : List α) (h : sep ∉ s) :
    cutAt sep s = (s, []) := by
  have hp : ∀ x ∈ s, decide (x ≠ sep) = true := by
    intro x hx
    simp only [ne_eq, decide_not, Bool.not_eq_eq_eq_not, Bool.not_true, decide_eq_false_iff_not]
    intro hxs
    exact h (hxs ▸ hx)
  unfold cutAt
  rw [List.takeWhile_eq_self_iff.mpr hp, List.dropWhile_eq_nil_iff.mpr hp]
  rfl

theorem cutAt_append_of_not_mem {α : Type} [DecidableEq α] (sep : α) (pre s : List α)
    (h : sep ∉ pre) :
    cutAt sep (pre ++ s) = (pre ++ (cutAt sep s).1, (cutAt sep s).2) := by
  have hp : ∀ x ∈ pre, decide (x ≠ sep) = true := by
    intro x hx
    simp only [ne_eq, decide_not, Bool.not_eq_eq_eq_not, Bool.not_true, decide_eq_false_iff_not]
    intro hxs
    exact h (hxs ▸ hx)
  unfold cutAt
  rw [List.takeWhile_append_of_pos hp, List.dropWhile_append_of_pos hp]

theorem cutAt_cons_self {α : Type} [DecidableEq α] (sep : α) (s : List α) :
    cutAt sep (sep :: s) = ([], s) := by
  simp [cutAt, List.takeWhile, List.dropWhile]

theorem cutAt_fst_not_mem {α : Type} [DecidableEq α] (sep : α) (s : List α) :
    sep ∉ (cutAt sep s).1 := by
  unfold cutAt
  intro h
  have := List.mem_takeWhile_imp h
  simp at this

theorem containsCTL_append (a b : List Char) :
    containsCTL (a ++ b) = (containsCTL a || containsCTL b) := by
  simp [containsCTL, List.any_append]

/-! ## Building the outbound request -/

/-- `NewRequestWithContext` on the URL of `cepHandler`, in terms of the postal
code alone. -/
theorem NewRequestWithContext_backendURL (ctx : Ctx) (m : String) (s : String) :
    NewRequestWithContext ctx m ("http://service-b:8081/temperatura?cep=" ++ s) =
      if containsCTL (cutAt '#' s.toList).1 then
        .error ⟨"parse",
          "http://service-b:8081/temperatura?cep=" ++ String.mk (cutAt '#' s.toList).1,
          .controlCharacter⟩
      else
        match badEscape (cutAt '#' s.toList).2 with
        | some e =>
          .error ⟨"parse", "http://service-b:8081/temperatura?cep=" ++ s, .escape (String.mk e)⟩
        | none =>
          .ok ⟨ctx, m, "http://service-b:8081/temperatura",
            "cep=" ++ String.mk (cutAt '#' s.toList).1⟩ := by
  have hcut : cutAt '#' ("http://service-b:8081/temperatura?cep=" ++ s).toList =
      ("http://service-b:8081/temperatura?cep=".toList ++ (cutAt '#' s.toList).1,
        (cutAt '#' s.toList).2) := by
    have : ("http://service-b:8081/temperatura?cep=" ++ s).toList =
        "http://service-b:8081/temperatura?cep=".toList ++ s.toList := by
      simp [String.toList, String.data_append]
    rw [this]
    exact cutAt_append_of_not_mem '#' _ _ (by decide)
  have hctl : containsCTL ("http://service-b:8081/temperatura?cep=".toList ++
      (cutAt '#' s.toList).1) = containsCTL (cutAt '#' s.toList).1 := by
    rw [containsCTL_append]
    have : containsCTL "http://service-b:8081/temperatura?cep=".toList = false := by decide
    rw [this]
    rfl
  have hq : cutAt '?' ("http://service-b:8081/temperatura?cep=".toList ++
      (cutAt '#' s.toList).1) =
      ("http://service-b:8081/temperatura".toList, "cep=".toList ++ (cutAt '#' s.toList).1) := by
    have : "http://service-b:8081/temperatura?cep=".toList ++ (cutAt '#' s.toList).1 =
        "http://service-b:8081/temperatura".toList ++
          ('?' :: ("cep=".toList ++ (cutAt '#' s.toList).1)) := by
      rfl
    rw [this, cutAt_append_of_not_mem '?' _ _ (by decide), cutAt_cons_self]
    simp
  unfold NewRequestWithContext
  simp only [hcut, hctl, hq]
  by_cases h : containsCTL (cutAt '#' s.toList).1 = true
  · simp only [h, if_true]
    rfl
  · simp only [h, if_false]
    cases badEscape (cutAt '#' s.toList).2 with
    | some e => rfl
    | none => rfl

/-! ## Reading the query on the backend -/

theorem segments_of_not_mem (sep : Byte) (q : Bytes) (h : sep ∉ q) : segments sep q = [q] := by
  induction q with
  | nil => rfl
  | cons b rest ih =>
    have hb : b ≠ sep := fun hbs => h (hbs ▸ List.mem_cons_self _ _)
    have hrest : sep ∉ rest := fun hr => h (List.mem_cons_of_mem _ hr)
    simp only [segments, hb, if_false, ih hrest]

theorem QueryUnescape_of_plain (t : Bytes) (h : ∀ b ∈ t, b.val ≠ 37 ∧ b.val ≠ 43) :
    QueryUnescape t = some t := by
  induction t with
  | nil => rfl
  | cons c rest ih =>
    have hc := h c (List.mem_cons_self _ _)
    have hrest := ih (fun b hb => h b (List.mem_cons_of_mem _ hb))
    unfold QueryUnescape
    simp only [hc.1, hc.2, if_false, hrest]

/-- A value without `&`, `;`, `%` and `+` is read back unchanged. -/
theorem ginQuery_cep (t : Bytes)
    (h : ∀ b ∈ t, b.val ≠ 38 ∧ b.val ≠ 59 ∧ b.val ≠ 37 ∧ b.val ≠ 43) :
    ginQuery (utf8 "cep=" ++ t) (utf8 "cep") = t := by
  have h38 : (38 : Byte) ∉ utf8 "cep=" ++ t := by
    intro hm
    rcases List.mem_append.mp hm with hm | hm
    · revert hm; decide
    · exact (h _ hm).1 rfl
  have h59 : (59 : Byte) ∉ utf8 "cep=" ++ t := by
    intro hm
    rcases List.mem_append.mp hm with hm | hm
    · revert hm; decide
    · exact (h _ hm).2.1 rfl
  have hne : utf8 "cep=" ++ t ≠ [] := by
    have : utf8 "cep=" = [99, 101, 112, 61] := by decide
    rw [this]
    simp
  have hcut : cutAt (61 : Byte) (utf8 "cep=" ++ t) = (utf8 "cep", t) := by
    have : utf8 "cep=" ++ t = utf8 "cep" ++ ((61 : Byte) :: t) := by
      have h1 : utf8 "cep=" = [99, 101, 112, 61] := by decide
      have h2 : utf8 "cep" = [99, 101, 112] := by decide
      rw [h1, h2]
      rfl
    rw [this, cutAt_append_of_not_mem (61 : Byte) _ _ (by decide), cutAt_cons_self]
    simp
  have hk : QueryUnescape (utf8 "cep") = some (utf8 "cep") := by decide
  have hv : QueryUnescape t = some t :=
    QueryUnescape_of_plain t (fun b hb => ⟨(h b hb).2.2.1, (h b hb).2.2.2⟩)
  unfold ginQuery parseQuery
  rw [segments_of_not_mem _ _ h38]
  simp only [List.filterMap_cons, List.filterMap_nil, h59, hne, if_false, hcut, hk, hv]
  simp

theorem utf8EncodeChar_hopSafe (c : Char) (hc : hopSafe c) :
    ∀ b ∈ utf8EncodeChar c,
      32 < b.val ∧ b.val ≠ 127 ∧ b.val ≠ 38 ∧ b.val ≠ 59 ∧ b.val ≠ 37 ∧ b.val ≠ 43 := by
  have hv : c.toNat < 0x110000 := by
    have := c.valid
    unfold Char.toNat
    rcases this with h | h
    · omega
    · exact h.2
  obtain ⟨h1, h2, h3, h4, h5, h6, h7⟩ := hc
  intro b hb
  unfold utf8EncodeChar at hb
  simp only at hb
  split at hb
  · simp only [List.mem_singleton] at hb
    subst hb
    simp only [Fin.ofNat, Nat.reduceAdd]
    omega
  · split at hb
    · simp only [List.mem_cons, List.mem_singleton, List.not_mem_nil, or_false] at hb
      rcases hb with hb | hb <;> subst hb <;> simp only [Fin.ofNat, Nat.reduceAdd] <;> omega
    · split at hb
      · simp only [List.mem_cons, List.mem_singleton, List.not_mem_nil, or_false] at hb
        rcases hb with hb | hb | hb <;> subst hb <;> simp only [Fin.ofNat, Nat.reduceAdd] <;>
          omega
      · simp only [List.mem_cons, List.mem_singleton, List.not_mem_nil, or_false] at hb
        rcases hb with hb | hb | hb | hb <;> subst hb <;>
          simp only [Fin.ofNat, Nat.reduceAdd] <;> omega

theorem utf8_hopSafe (l : List Char) (h : ∀ c ∈ l, hopSafe c) :
    ∀ b ∈ utf8 (String.mk l),
      32 < b.val ∧ b.val ≠ 127 ∧ b.val ≠ 38 ∧ b.val ≠ 59 ∧ b.val ≠ 37 ∧ b.val ≠ 43 := by
  intro b hb
  unfold utf8 at hb
  obtain ⟨c, hc, hbc⟩ := List.mem_flatMap.mp hb
  exact utf8EncodeChar_hopSafe c (h c hc) b hbc

theorem utf8_append (a b : String) : utf8 (a ++ b) = utf8 a ++ utf8 b := by
  simp [utf8, String.toList, String.data_append, List.flatMap_append]

/-- For a postal code made of safe characters the request is built, with the
code itself as the value of `cep`. -/
theorem NewRequestWithContext_hopSafe (ctx : Ctx) (m : String) (s : String)
    (h : ∀ c ∈ s.toList, hopSafe c) :
    NewRequestWithContext ctx m ("http://service-b:8081/temperatura?cep=" ++ s) =
      .ok ⟨ctx, m, "http://service-b:8081/temperatura", "cep=" ++ s⟩ := by
  have hhash : '#' ∉ s.toList := fun hm => (h _ hm).2.2.1 (by decide)
  have hctl : containsCTL s.toList = false := by
    unfold containsCTL
    rw [List.any_eq_false]
    intro c hc
    obtain ⟨h1, h2, _⟩ := h c hc
    simp only [Bool.or_eq_true, decide_eq_true_eq, beq_iff_eq, not_or, not_lt]
    exact ⟨by omega, h2⟩
  rw [NewRequestWithContext_backendURL, cutAt_of_not_mem _ _ hhash]
  simp only [hctl, Bool.false_eq_true, if_false, badEscape]
  rfl

theorem not_containsCTLByte (t : Bytes) (h : ∀ b ∈ t, 32 < b.val ∧ b.val ≠ 127) :
    containsCTLByte t = false := by
  unfold containsCTLByte
  rw [List.any_eq_false]
  intro b hb
  have := h b hb
  simp only [Bool.or_eq_true, decide_eq_true_eq, beq_iff_eq, not_or, not_lt]
  exact ⟨by omega, this.2⟩

/-- The request line of a safe postal code is well formed. -/
theorem rawQuery_wellFormed (s : String) (h : ∀ c ∈ s.toList, hopSafe c) :
    ¬ ((32 : Byte) ∈ utf8 ("cep=" ++ s) ∨ containsCTLByte (utf8 ("cep=" ++ s)) = true) := by
  have hb : ∀ b ∈ utf8 ("cep=" ++ s), 32 < b.val ∧ b.val ≠ 127 := by
    intro b hb
    rw [utf8_append] at hb
    rcases List.mem_append.mp hb with hb | hb
    · have h1 : utf8 "cep=" = [99, 101, 112, 61] := by decide
      rw [h1] at hb
      simp only [List.mem_cons, List.mem_singleton, List.not_mem_nil, or_false] at hb
      rcases hb with hb | hb | hb | hb <;> subst hb <;> decide
    · have := utf8_hopSafe s.toList h b hb
      exact ⟨this.1, this.2.1⟩
  intro hor
  rcases hor with h32 | hctl
  · exact absurd (hb _ h32).1 (by decide)
  · rw [not_containsCTLByte _ hb] at hctl
    exact Bool.false_ne_true hctl

/-- A postal code made of safe characters crosses the hop unchanged. -/
theorem backendReads_hopSafe (s : String) (h : ∀ c ∈ s.toList, hopSafe c) :
    backendReads s = some (utf8 s) := by
  have hwf := rawQuery_wellFormed s h
  have hq : ginQuery (utf8 ("cep=" ++ s)) (utf8 "cep") = utf8 s := by
    rw [utf8_append]
    exact ginQuery_cep _ (fun b hb => (utf8_hopSafe s.toList h b hb).2.2)
  unfold backendReads
  rw [NewRequestWithContext_hopSafe _ _ s h]
  simp only [hwf, if_false, hq]
/-! ## The hop for a postal code of 8 digits -/

theorem hopSafe_of_digit (c : Char) (h : 48 ≤ c.toNat ∧ c.toNat ≤ 57) : hopSafe c := by
  unfold hopSafe
  omega

theorem utf8_digits (l : List Char) (h : ∀ c ∈ l, 48 ≤ c.toNat ∧ c.toNat ≤ 57) :
    (utf8 (String.mk l)).length = l.length ∧ ∀ b ∈ utf8 (String.mk l), isDigit b := by
  induction l with
  | nil => exact ⟨rfl, fun b hb => by simp [utf8] at hb⟩
  | cons c rest ih =>
    have hc := h c (List.mem_cons_self _ _)
    have ihr := ih (fun x hx => h x (List.mem_cons_of_mem _ hx))
    have henc : utf8EncodeChar c = [Fin.ofNat c.toNat] := by
      unfold utf8EncodeChar
      have : c.toNat < 128 := by omega
      simp only [this, if_true]
    have hcons : utf8 (String.mk (c :: rest)) = Fin.ofNat c.toNat :: utf8 (String.mk rest) := by
      simp only [utf8, String.toList, List.flatMap_cons, henc]
      rfl
    rw [hcons]
    refine ⟨by simp [ihr.1], ?_⟩
    intro b hb
    rcases List.mem_cons.mp hb with hb | hb
    · subst hb
      unfold isDigit
      simp only [Fin.ofNat]
      omega
    · exact ihr.2 b hb

theorem ShouldBindJSON_cep (s : String) (h : 8 ≤ s.length) :
    ShouldBindJSON (.json (.obj [("cep", .str s)])) = some ⟨s⟩ := by
  have hk : keyMatches "cep" "cep" = true := by decide
  have hne : s ≠ "" := by
    intro h2
    subst h2
    simp at h
  have hlt : ¬ s.length < 8 := by omega
  simp only [ShouldBindJSON, decodeCepInput, decodeCepInputFields, hk, if_true, hne, hlt,
    if_false]

/-! ## The frontend after validation -/

theorem decodeCepInputFields_short (fields : List (String × Json))
    (h : ∀ kv ∈ fields, keyMatches kv.1 "cep" = true → ∃ s, kv.2 = .str s ∧ s.length < 8)
    (r : CepInputDTO) (hr : r.CEP.length < 8) :
    ∃ t, decodeCepInputFields fields r = some ⟨t⟩ ∧ t.length < 8 := by
  induction fields generalizing r with
  | nil => exact ⟨r.CEP, rfl, hr⟩
  | cons kv rest ih =>
    obtain ⟨k, v⟩ := kv
    have hrest : ∀ kv ∈ rest, keyMatches kv.1 "cep" = true → ∃ s, kv.2 = .str s ∧ s.length < 8 :=
      fun kv hkv => h kv (List.mem_cons_of_mem _ hkv)
    unfold decodeCepInputFields
    by_cases hk : keyMatches k "cep" = true
    · obtain ⟨s, hv, hs⟩ := h (k, v) (List.mem_cons_self _ _) hk
      simp only at hv
      subst hv
      simp only [hk, if_true]
      exact ih hrest ⟨s⟩ hs
    · simp only [hk, if_false]
      exact ih hrest r hr

theorem ShouldBindJSON_short (fields : List (String × Json))
    (h : ∀ kv ∈ fields, keyMatches kv.1 "cep" = true → ∃ s, kv.2 = .str s ∧ s.length < 8) :
    ShouldBindJSON (.json (.obj fields)) = none := by
  obtain ⟨t, ht, hlen⟩ := decodeCepInputFields_short fields h ⟨""⟩ (by decide)
  simp only [ShouldBindJSON, decodeCepInput, ht]
  by_cases he : t = ""
  · simp only [he, if_true]
  · simp only [he, if_false, hlen, if_true]

/-- The one event of a frontend run that reaches `client.Do`. -/
theorem cepHandler_built (w : Frontend) (s : String) (req : Request) (hlen : 8 ≤ s.length)
    (hreq : NewRequestWithContext .request "GET" ("http://service-b:8081/temperatura?cep=" ++ s)
      = .ok req) :
    (cepHandler w (cepPayload s)).2 =
        [.httpCall req.ctx (utf8 (req.Location ++ "?" ++ req.RawQuery))] ∧
      ((cepHandler w (cepPayload s)).1.status = 200 ∨
        (cepHandler w (cepPayload s)).1 = ⟨500, H "message" "internal server error"⟩) := by
  unfold cepHandler cepPayload
  simp only [ShouldBindJSON_cep s hlen, hreq]
  cases w.roundTrip req with
  | transportError => exact ⟨rfl, Or.inr rfl⟩
  | response status body =>
    by_cases hst : status = StatusOK
    · simp only [hst, ne_eq, not_true_eq_false, if_false]
      cases body with
      | unreadable => exact ⟨rfl, Or.inr rfl⟩
      | malformed => exact ⟨rfl, Or.inr rfl⟩
      | json v =>
        simp only
        cases decodeServiceb v with
        | none => exact ⟨rfl, Or.inr rfl⟩
        | some r => exact ⟨rfl, Or.inl rfl⟩
    · refine ⟨?_, Or.inr ?_⟩ <;>
        simp only [if_pos (show status ≠ StatusOK from hst), StatusInternalServerError]

/-- The frontend when the outbound request cannot be built. -/
theorem cepHandler_not_built (w : Frontend) (s : String) (err : UrlError) (hlen : 8 ≤ s.length)
    (hreq : NewRequestWithContext .request "GET" ("http://service-b:8081/temperatura?cep=" ++ s)
      = .error err) :
    cepHandler w (cepPayload s) = (⟨500, H "error" (err.Error w.Quote)⟩, []) := by
  unfold cepHandler cepPayload
  simp only [ShouldBindJSON_cep s hlen, hreq, StatusInternalServerError]

/-! ## The float64 reading: decoding the upstream bodies -/

theorem decodeViaCEPFields_skip (l rest : List (String × Json)) (r : ViaCEPResponse)
    (h : ∀ kv ∈ l, keyMatches kv.1 "localidade" = false) :
    decodeViaCEPFields (l ++ rest) r = decodeViaCEPFields rest r := by
  induction l with
  | nil => rfl
  | cons kv l ih =>
    obtain ⟨k, v⟩ := kv
    have hk : keyMatches k "localidade" = false := h (k, v) (List.mem_cons_self _ _)
    have hl := ih (fun kv hkv => h kv (List.mem_cons_of_mem _ hkv))
    simp only [List.cons_append, decodeViaCEPFields, hk, Bool.false_eq_true, if_false]
    exact hl

/-- A directory body with one entry `localidade`, a string, decodes to it. -/
theorem unmarshalViaCEP_entry (pre post : List (String × Json)) (p : String)
    (h : ∀ kv ∈ pre ++ post, keyMatches kv.1 "localidade" = false) :
    unmarshalViaCEP (.obj (pre ++ ("localidade", .str p) :: post)) = some ⟨p⟩ := by
  have hpre : ∀ kv ∈ pre, keyMatches kv.1 "localidade" = false :=
    fun kv hkv => h kv (List.mem_append_left _ hkv)
  have hpost : ∀ kv ∈ post, keyMatches kv.1 "localidade" = false :=
    fun kv hkv => h kv (List.mem_append_right _ hkv)
  have hk : keyMatches "localidade" "localidade" = true := by decide
  have hend := decodeViaCEPFields_skip post [] ⟨p⟩ hpost
  rw [List.append_nil] at hend
  simp only [unmarshalViaCEP, decodeViaCEPFields_skip pre _ _ hpre, decodeViaCEPFields, hk,
    if_true, hend]

theorem decodeCurrentFields64_skip (l rest : List (String × Json)) (r : WeatherCurrent64)
    (h : ∀ kv ∈ l, keyMatches kv.1 "temp_c" = false) :
    decodeCurrentFields64 (l ++ rest) r = decodeCurrentFields64 rest r := by
  induction l with
  | nil => rfl
  | cons kv l ih =>
    obtain ⟨k, v⟩ := kv
    have hk : keyMatches k "temp_c" = false := h (k, v) (List.mem_cons_self _ _)
    have hl := ih (fun kv hkv => h kv (List.mem_cons_of_mem _ hkv))
    simp only [List.cons_append, decodeCurrentFields64, hk, Bool.false_eq_true, if_false]
    exact hl

theorem decodeWeatherFields64_skip (l rest : List (String × Json)) (r : WeatherResponse64)
    (h : ∀ kv ∈ l, keyMatches kv.1 "current" = false) :
    decodeWeatherFields64 (l ++ rest) r = decodeWeatherFields64 rest r := by
  induction l with
  | nil => rfl
  | cons kv l ih =>
    obtain ⟨k, v⟩ := kv
    have hk : keyMatches k "current" = false := h (k, v) (List.mem_cons_self _ _)
    have hl := ih (fun kv hkv => h kv (List.mem_cons_of_mem _ hkv))
    simp only [List.cons_append, decodeWeatherFields64, hk, Bool.false_eq_true, if_false]
    exact hl

theorem F64.parse_of_finite (q : ℚ) (m e : Int) (h : F64.ofRat q = .finite m e) :
    F64.parse q = some (.finite m e) := by
  simp only [F64.parse, h, F64.isFinite, if_true]

/-- A weather body with one entry `current`, an object with one entry
`temp_c`, a number in the range of `float64`, decodes to that number rounded. -/
theorem unmarshalWeather64_entry (wpre wpost cpre cpost : List (String × Json)) (q : ℚ)
    (m e : Int)
    (hw : ∀ kv ∈ wpre ++ wpost, keyMatches kv.1 "current" = false)
    (hcur : ∀ kv ∈ cpre ++ cpost, keyMatches kv.1 "temp_c" = false)
    (hq : F64.ofRat q = .finite m e) :
    unmarshalWeather64
        (.obj (wpre ++ ("current", .obj (cpre ++ ("temp_c", .num q) :: cpost)) :: wpost)) =
      some ⟨⟨.finite m e⟩⟩ := by
  have hwpre : ∀ kv ∈ wpre, keyMatches kv.1 "current" = false :=
    fun kv hkv => hw kv (List.mem_append_left _ hkv)
  have hwpost : ∀ kv ∈ wpost, keyMatches kv.1 "current" = false :=
    fun kv hkv => hw kv (List.mem_append_right _ hkv)
  have hcpre : ∀ kv ∈ cpre, keyMatches kv.1 "temp_c" = false :=
    fun kv hkv => hcur kv (List.mem_append_left _ hkv)
  have hcpost : ∀ kv ∈ cpost, keyMatches kv.1 "temp_c" = false :=
    fun kv hkv => hcur kv (List.mem_append_right _ hkv)
  have hk1 : keyMatches "current" "current" = true := by decide
  have hk2 : keyMatches "temp_c" "temp_c" = true := by decide
  have hcend := decodeCurrentFields64_skip cpost [] ⟨.finite m e⟩ hcpost
  rw [List.append_nil] at hcend
  have hwend := decodeWeatherFields64_skip wpost [] ⟨⟨.finite m e⟩⟩ hwpost
  rw [List.append_nil] at hwend
  have hinner : decodeCurrent64 (.obj (cpre ++ ("temp_c", .num q) :: cpost)) ⟨.finite 0 0⟩ =
      some ⟨.finite m e⟩ := by
    simp only [decodeCurrent64, decodeCurrentFields64_skip cpre _ _ hcpre, decodeCurrentFields64,
      hk2, if_true, storeFloat64, F64.parse_of_finite q m e hq, hcend]
  simp only [unmarshalWeather64, decodeWeatherFields64_skip wpre _ _ hwpre, decodeWeatherFields64,
    hk1, if_true, hinner, hwend]

/-! ## The float64 reading: the shape of the handlers -/

theorem getTemperatura64_snd (rt : Runtime) (up : Upstream) (localidade : String) :
    (getTemperatura64 rt up localidade).2 = temperaturaEvents up localidade := rfl

theorem getTemperatura64_ok (rt : Runtime) (up : Upstream) (localidade : String) (v : Json)
    (x : F64)
    (hget : up.get (weatherURL up.weatherAPIKey (QueryEscape (utf8 localidade))) =
      .response 200 (.json v))
    (hdec : unmarshalWeather64 v = some ⟨⟨x⟩⟩) :
    (getTemperatura64 rt up localidade).1 = .ok (x, fahrenheit64 rt x, kelvin64 x) := by
  unfold getTemperatura64
  simp only [hget, hdec, ne_eq, not_true_eq_false, if_false]

theorem climaHandler64_success (rt : Runtime) (up : Upstream) (c : Context) (p : String)
    (t : F64 × F64 × F64)
    (hlen : (c.Query (utf8 "cep")).length = 8) (hnum : isNumeric (c.Query (utf8 "cep")) = true)
    (hloc : (getLocalidade up (c.Query (utf8 "cep"))).1 = .ok p)
    (htemp : (getTemperatura64 rt up p).1 = .ok t) :
    climaHandler64 rt up c =
      (writeTemperatures rt t.1 t.2.1 t.2.2,
        localidadeEvents (c.Query (utf8 "cep")) ++ temperaturaEvents up p) := by
  have hsnd := getLocalidade_snd up (c.Query (utf8 "cep"))
  have hsnd2 := getTemperatura64_snd rt up p
  unfold climaHandler64
  simp only [hlen, hnum, ne_eq, not_true_eq_false, or_self, if_false]
  rcases hL : getLocalidade up (c.Query (utf8 "cep")) with ⟨r, ev⟩
  rw [hL] at hloc hsnd
  simp only at hloc hsnd
  subst hloc hsnd
  simp only
  rcases hT : getTemperatura64 rt up p with ⟨r2, ev2⟩
  rw [hT] at htemp hsnd2
  simp only at htemp hsnd2
  subst htemp hsnd2
  obtain ⟨a, b, d⟩ := t
  simp only

/-- The backend's answer, `float64` reading, for a postal code of 8 digits
whose two lookups succeed: what `c.JSON` leaves on the wire for the three
temperatures. -/
theorem backendServe64_digits (rt : Runtime) (up : Upstream) (s p : String) (x : F64)
    (status : Nat) (dv wv : Json)
    (hlen : s.length = 8)
    (hdig : ∀ ch ∈ s.toList, 48 ≤ ch.toNat ∧ ch.toNat ≤ 57)
    (hget : up.get (viaCEPURL (utf8 s)) = .response status (.json dv))
    (hdec : unmarshalViaCEP dv = some ⟨p⟩) (hp : p ≠ "")
    (hwget : up.get (weatherURL up.weatherAPIKey (QueryEscape (utf8 p))) =
      .response 200 (.json wv))
    (hwdec : unmarshalWeather64 wv = some ⟨⟨x⟩⟩) :
    (backendServe64 rt up (utf8 ("cep=" ++ s))).1 =
      (writeTemperatures rt x (fahrenheit64 rt x) (kelvin64 x)).wire := by
  have hsafe : ∀ ch ∈ s.toList, hopSafe ch := fun ch hch => hopSafe_of_digit ch (hdig ch hch)
  have hbytes := utf8_digits s.toList hdig
  have hblen : (utf8 s).length = 8 := by
    have := hbytes.1
    rw [show s.toList.length = s.length from rfl, hlen] at this
    exact this
  have hq : ginQuery (utf8 ("cep=" ++ s)) (utf8 "cep") = utf8 s := by
    rw [utf8_append]
    exact ginQuery_cep _ (fun b hb => (utf8_hopSafe s.toList hsafe b hb).2.2)
  have hnum : isNumeric (utf8 s) = true := isNumeric_of_digits _ hblen hbytes.2
  have hloc : (getLocalidade up (utf8 s)).1 = .ok p :=
    getLocalidade_ok up _ status dv p hget hdec hp
  have htemp := getTemperatura64_ok rt up p wv x hwget hwdec
  have hclima := climaHandler64_success rt up ⟨ginQuery (utf8 ("cep=" ++ s))⟩ p _
    (by simpa only [hq] using hblen) (by simpa only [hq] using hnum)
    (by simpa only [hq] using hloc) htemp
  unfold backendServe64
  simp only [rawQuery_wellFormed s hsafe, if_false, hclima]

/-- The frontend, `float64` reading, once the request is validated and built:
its answer is decided by what the backend left on the wire. -/
theorem cepHandler64_relay (rt : Runtime) (w : Frontend) (s : String) (req : Request)
    (a b d : ℚ) (x y z : F64)
    (hlen : 8 ≤ s.length)
    (hreq : NewRequestWithContext .request "GET" ("http://service-b:8081/temperatura?cep=" ++ s)
      = .ok req)
    (hrt : w.roundTrip req = .response 200
      (.json (.obj [("temp_C", .num a), ("temp_F", .num b), ("temp_K", .num d)])))
    (ha : F64.parse a = some x) (hb : F64.parse b = some y) (hd : F64.parse d = some z) :
    (cepHandler64 rt w (cepPayload s)).1 = writeCepOutput rt ⟨"", x, y, z⟩ := by
  have h1 : keyMatches "temp_C" "city" = false := by decide
  have h2 : keyMatches "temp_C" "temp_C" = true := by decide
  have h3 : keyMatches "temp_F" "city" = false := by decide
  have h4 : keyMatches "temp_F" "temp_C" = false := by decide
  have h5 : keyMatches "temp_F" "temp_F" = true := by decide
  have h6 : keyMatches "temp_K" "city" = false := by decide
  have h7 : keyMatches "temp_K" "temp_C" = false := by decide
  have h8 : keyMatches "temp_K" "temp_F" = false := by decide
  have h9 : keyMatches "temp_K" "temp_K" = true := by decide
  have hdecode : decodeServiceb64
      (.obj [("temp_C", .num a), ("temp_F", .num b), ("temp_K", .num d)]) =
      some ⟨"", x, y, z⟩ := by
    simp only [decodeServiceb64, decodeServicebFields64, storeServicebField64, storeFloat64, h1,
      h2, h3, h4, h5, h6, h7, h8, h9, ha, hb, hd, Option.map_some', Bool.false_eq_true, if_false,
      if_true]
  unfold cepHandler64 cepPayload
  simp only [ShouldBindJSON_cep s hlen, hreq, hrt, StatusOK, ne_eq, not_true_eq_false, if_false,
    hdecode]

/-- The frontend, `float64` reading, when the backend left no JSON on the
wire. -/
theorem cepHandler64_no_body (rt : Runtime) (w : Frontend) (s : String) (req : Request)
    (status : Nat) (hlen : 8 ≤ s.length)
    (hreq : NewRequestWithContext .request "GET" ("http://service-b:8081/temperatura?cep=" ++ s)
      = .ok req)
    (hrt : w.roundTrip req = .response status .malformed) :
    (cepHandler64 rt w (cepPayload s)).1 =
      ⟨500, some (H "message" "internal server error")⟩ := by
  unfold cepHandler64 cepPayload
  simp only [ShouldBindJSON_cep s hlen, hreq, hrt]
  by_cases hst : status = StatusOK
  · simp only [hst, ne_eq, not_true_eq_false, if_false, StatusInternalServerError]
  · simp only [if_pos (show status ≠ StatusOK from hst), StatusInternalServerError]

theorem writeTemperatures_finite (rt : Runtime) (cm ce fm fe km ke : Int) :
    writeTemperatures rt (.finite cm ce) (.finite fm fe) (.finite km ke) =
      ⟨200, some (.obj [("temp_C", .num (rt.formatFloat (.finite cm ce))),
        ("temp_F", .num (rt.formatFloat (.finite fm fe))),
        ("temp_K", .num (rt.formatFloat (.finite km ke)))])⟩ := rfl

theorem writeCepOutput_finite (rt : Runtime) (city : String) (cm ce fm fe km ke : Int) :
    writeCepOutput rt ⟨city, .finite cm ce, .finite fm fe, .finite km ke⟩ =
      ⟨200, some (.obj [("city", .str city),
        ("temp_C", .num (rt.formatFloat (.finite cm ce))),
        ("temp_F", .num (rt.formatFloat (.finite fm fe))),
        ("temp_K", .num (rt.formatFloat (.finite km ke)))])⟩ := rfl

theorem Runtime.encodeFloat_not_finite (rt : Runtime) (x : F64) (h : x.isFinite = false) :
    rt.encodeFloat x = none := by
  simp only [Runtime.encodeFloat, h, Bool.false_eq_true, if_false]

/-- When one of the three temperatures is not finite, `c.JSON` writes nothing. -/
theorem writeTemperatures_not_finite (rt : Runtime) (x y z : F64)
    (h : x.isFinite = false ∨ y.isFinite = false ∨ z.isFinite = false) :
    writeTemperatures rt x y z = ⟨rt.renderErrorStatus, none⟩ := by
  unfold writeTemperatures
  rcases h with h | h | h
  · rw [rt.encodeFloat_not_finite x h]
  · rw [rt.encodeFloat_not_finite y h]
    cases rt.encodeFloat x <;> rfl
  · rw [rt.encodeFloat_not_finite z h]
    cases rt.encodeFloat x <;> cases rt.encodeFloat y <;> rfl

theorem Written.wire_none (status : Nat) :
    (⟨status, none⟩ : Written).wire = .response status .malformed := rfl

theorem Written.wire_some (status : Nat) (v : Json) :
    (⟨status, some v⟩ : Written).wire = .response status (.json v) := rfl

/-- A temperature beyond the range of `float64` does not decode: the weather
lookup fails and the backend answers 500. -/
theorem climaHandler64_out_of_range :
    (getTemperatura64 runtimeUnfused upOutOfRange "São Paulo").1.toOption = none ∧
    (climaHandler64 runtimeUnfused upOutOfRange ctx01001000).1.status = 500 := by
  decide!

/-! ## C1 -/

set_option maxRecDepth 4096 in
/-- C1, counterexample: the query parameter `-1234567` has 8 characters that
are not all digits, yet `climaHandler` accepts it and starts the location
lookup. -/
theorem climaHandler_accepts_signed :
    ¬ (Event.spanStart "getLocalidade" ∈
          (climaHandler upSaoPaulo ⟨fun _ => utf8 "-1234567"⟩).2 ↔
        ((utf8 "-1234567").length = 8 ∧ ∀ b ∈ utf8 "-1234567", isDigit b)) := by
  decide

/-- C1, amended: `climaHandler` goes on to the location lookup if and only if
the `cep` parameter has exactly 8 bytes and is either 8 ASCII digits or a sign
(`+` or `-`) followed by 7 ASCII digits; every other parameter is answered
422 `invalid zipcode` with no event at all (no upstream call). -/
theorem climaHandler_accepts_iff (up : Upstream) (c : Context) :
    (Event.spanStart "getLocalidade" ∈ (climaHandler up c).2 ↔
      ((c.Query (utf8 "cep")).length = 8 ∧
        ((∀ b ∈ c.Query (utf8 "cep"), isDigit b) ∨
          ∃ sgn rest, c.Query (utf8 "cep") = sgn :: rest ∧ (sgn.val = 43 ∨ sgn.val = 45) ∧
            ∀ b ∈ rest, isDigit b))) ∧
    (Event.spanStart "getLocalidade" ∈ (climaHandler up c).2 ∨
      climaHandler up c = (⟨422, H "message" "invalid zipcode"⟩, [])) := by
  by_cases hlen : (c.Query (utf8 "cep")).length = 8
  · by_cases hnum : isNumeric (c.Query (utf8 "cep")) = true
    · have hacc := climaHandler_valid_starts up c hlen hnum
      exact ⟨⟨fun _ => ⟨hlen, (isNumeric_length_eight _ hlen).mp hnum⟩, fun _ => hacc⟩,
        Or.inl hacc⟩
    · have hrej := climaHandler_invalid up c (Or.inr hnum)
      refine ⟨⟨fun h => ?_, fun h => ?_⟩, Or.inr hrej⟩
      · rw [hrej] at h
        simp at h
      · exact absurd ((isNumeric_length_eight _ hlen).mpr h.2) hnum
  · have hrej := climaHandler_invalid up c (Or.inl hlen)
    refine ⟨⟨fun h => ?_, fun h => absurd h.1 hlen⟩, Or.inr hrej⟩
    rw [hrej] at h
    simp at h

set_option maxRecDepth 8192 in
/-- C1, witness: `01001000` is accepted. -/
theorem climaHandler_accepts_iff_witness :
    Event.spanStart "getLocalidade" ∈ (climaHandler upSaoPaulo ctx01001000).2 :=
  (climaHandler_accepts_iff upSaoPaulo ctx01001000).1.mpr ⟨by decide, Or.inl (by decide)⟩

/-! ## C2 -/

/-- C2: when the weather lookup answers 200 with a body that decodes to the
Celsius value `c`, `getTemperatura` returns the triple
`(c, c*9/5 + 32, c + 273.15)`. -/
theorem getTemperatura_triple (up : Upstream) (localidade : String) (v : Json)
    (w : WeatherResponse)
    (hget : up.get (weatherURL up.weatherAPIKey (QueryEscape (utf8 localidade))) =
      .response 200 (.json v))
    (hdec : unmarshalWeather v = some w) :
    (getTemperatura up localidade).1 =
      .ok (w.Current.TempC, w.Current.TempC * 9 / 5 + 32, w.Current.TempC + 273.15) := by
  unfold getTemperatura
  simp only [hget, hdec, ne_eq, not_true_eq_false, if_false]
  congr 3
  norm_num
  ring

/-- C2, witness: 25 °C gives (25, 77, 298.15). -/
theorem getTemperatura_triple_witness :
    (getTemperatura upSaoPaulo "São Paulo").1 = .ok ((25 : ℚ), 77, 298.15) := by
  have h := getTemperatura_triple upSaoPaulo "São Paulo"
    (.obj [("current", .obj [("temp_c", .num 25)])]) ⟨⟨25⟩⟩ (by rfl) (by rfl)
  rw [h]
  norm_num

/-! ## C3 -/

/-- C3: for a valid postal code (8 digits), if the directory lookup answers
with a JSON object in which every entry for `localidade` is the empty string
(in particular when there is none), then `getLocalidade` returns an error,
`climaHandler` answers 404 `cannot find zipcode`, and `getTemperatura` is not
invoked: no span `getTemperatura` is started. -/
theorem climaHandler_empty_localidade (up : Upstream) (c : Context) (status : Nat)
    (fields : List (String × Json))
    (hlen : (c.Query (utf8 "cep")).length = 8)
    (hdig : ∀ b ∈ c.Query (utf8 "cep"), isDigit b)
    (hget : up.get (viaCEPURL (c.Query (utf8 "cep"))) = .response status (.json (.obj fields)))
    (hloc : ∀ kv ∈ fields, keyMatches kv.1 "localidade" = true → kv.2 = .str "") :
    (∃ e, (getLocalidade up (c.Query (utf8 "cep"))).1 = .error e) ∧
    (climaHandler up c).1 = ⟨404, H "message" "cannot find zipcode"⟩ ∧
    (climaHandler up c).2.count (.spanStart "getTemperatura") = 0 := by
  have herr := getLocalidade_error_of_empty up _ status fields hget hloc
  have hnum := isNumeric_of_digits _ hlen hdig
  rw [climaHandler_notFound up c _ hlen hnum herr]
  refine ⟨⟨_, herr⟩, rfl, ?_⟩
  simp [localidadeEvents]

set_option maxRecDepth 8192 in
/-- C3, witness: the directory answers `{"erro": true}` for `01001000`. -/
theorem climaHandler_empty_localidade_witness :
    (∃ e, (getLocalidade upUnknownCode (ctx01001000.Query (utf8 "cep"))).1 = .error e) ∧
    (climaHandler upUnknownCode ctx01001000).1 = ⟨404, H "message" "cannot find zipcode"⟩ ∧
    (climaHandler upUnknownCode ctx01001000).2.count (.spanStart "getTemperatura") = 0 :=
  climaHandler_empty_localidade upUnknownCode ctx01001000 200 [("erro", .bool true)]
    (by decide) (by decide) (by rfl)
    (by
      intro kv hkv hk
      simp only [List.mem_singleton] at hkv
      subst hkv
      exact absurd hk (by decide))

/-! ## C4 -/

/-- C4: for a valid postal code whose directory lookup decodes to a non-empty
place name `p`, every failure of the weather lookup (transport error, status
outside 200..299, unreadable body, body that is not JSON, JSON that does not
decode) makes `climaHandler` answer exactly 500
`error fetching weather data`. -/
theorem climaHandler_weather_failure (up : Upstream) (c : Context) (status : Nat) (v : Json)
    (p : String)
    (hlen : (c.Query (utf8 "cep")).length = 8)
    (hdig : ∀ b ∈ c.Query (utf8 "cep"), isDigit b)
    (hget : up.get (viaCEPURL (c.Query (utf8 "cep"))) = .response status (.json v))
    (hdec : unmarshalViaCEP v = some ⟨p⟩) (hp : p ≠ "")
    (hfail :
      up.get (weatherURL up.weatherAPIKey (QueryEscape (utf8 p))) = .transportError ∨
      (∃ st body, up.get (weatherURL up.weatherAPIKey (QueryEscape (utf8 p))) = .response st body
        ∧ (st < 200 ∨ 300 ≤ st)) ∨
      (∃ st, up.get (weatherURL up.weatherAPIKey (QueryEscape (utf8 p))) =
        .response st .unreadable) ∨
      (∃ st, up.get (weatherURL up.weatherAPIKey (QueryEscape (utf8 p))) =
        .response st .malformed) ∨
      (∃ st w, up.get (weatherURL up.weatherAPIKey (QueryEscape (utf8 p))) =
        .response st (.json w) ∧ unmarshalWeather w = none)) :
    (climaHandler up c).1 = ⟨500, H "message" "error fetching weather data"⟩ := by
  have hnum := isNumeric_of_digits _ hlen hdig
  have hok := getLocalidade_ok up _ status v p hget hdec hp
  have herr : ∃ e, (getTemperatura up p).1 = .error e := by
    unfold getTemperatura
    rcases hfail with h | ⟨st, body, h, hst⟩ | ⟨st, h⟩ | ⟨st, h⟩ | ⟨st, w, h, hw⟩
    · simp only [h]; exact ⟨_, rfl⟩
    · have : st ≠ 200 := by omega
      simp only [h, ne_eq, this, not_false_eq_true, if_true]; exact ⟨_, rfl⟩
    · simp only [h]; split <;> exact ⟨_, rfl⟩
    · simp only [h]; split <;> exact ⟨_, rfl⟩
    · simp only [h, hw]; split <;> exact ⟨_, rfl⟩
  obtain ⟨e, he⟩ := herr
  rw [climaHandler_weatherError up c p e hlen hnum hok he]

set_option maxRecDepth 8192 in
/-- C4, witness: the weather lookup answers 503. -/
theorem climaHandler_weather_failure_witness :
    (climaHandler upWeatherDown ctx01001000).1 =
      ⟨500, H "message" "error fetching weather data"⟩ :=
  climaHandler_weather_failure upWeatherDown ctx01001000 200
    (.obj [("localidade", .str "São Paulo")]) "São Paulo"
    (by decide) (by decide) (by rfl) (by rfl) (by decide)
    (Or.inr (Or.inl ⟨503, .json (.obj [("current", .obj [("temp_c", .num 25)])]), by rfl,
      by decide⟩))

/-! ## C5 -/

set_option maxRecDepth 8192 in
/-- C5, the code at the failing input: the directory lookup answers status 500
with a body naming `São Paulo`; `getLocalidade` does not look at the status,
returns the place name, and `climaHandler` goes on to the weather lookup and
answers 200. -/
theorem getLocalidade_ignores_status :
    (getLocalidade upDirectory500 (utf8 "01001000")).1 = .ok "São Paulo" ∧
    (climaHandler upDirectory500 ctx01001000).1.status = 200 ∧
    Event.spanStart "getTemperatura" ∈ (climaHandler upDirectory500 ctx01001000).2 := by
  refine ⟨by rfl, by decide, by decide⟩

/-! ## C6 -/

set_option maxRecDepth 8192 in
/-- C6, the code at the failing input: for the payload `{"cep":"1234567\n"}`,
which passes the validation, building the outbound request fails and
`cepHandler` answers 500 with the body `{"error": err.Error()}`, the text of
the `*url.Error` (which quotes the URL and so the client's postal code), not
the generic `{"message":"internal server error"}`. -/
theorem cepHandler_leaks_build_error (w : Frontend) :
    cepHandler w (cepPayload "1234567\n") =
      (⟨500, H "error" ("parse " ++ w.Quote "http://service-b:8081/temperatura?cep=1234567\n"
          ++ ": " ++ "net/url: invalid control character in URL")⟩, []) ∧
    (cepHandler w (cepPayload "1234567\n")).1 ≠ ⟨500, H "message" "internal server error"⟩ := by
  have hreq : NewRequestWithContext .request "GET"
      ("http://service-b:8081/temperatura?cep=" ++ "1234567\n") =
      .error ⟨"parse", "http://service-b:8081/temperatura?cep=1234567\n", .controlCharacter⟩ := by
    rfl
  have h := cepHandler_not_built w "1234567\n" _ (by decide) hreq
  refine ⟨h, ?_⟩
  rw [h]
  simp [H]

/-! ## C7 -/

/-- C7, counterexample: the postal code `01001000` has 8 digits, the
directory lookup returns `São Paulo` and the weather lookup returns the
temperature `1e308`; `tempC*1.8 + 32` overflows `float64` to `+Inf`, `c.JSON`
cannot encode it, the backend writes no body, and the client is answered 500
`internal server error`, not 200 (with or without fused multiply-add, and
whichever status gin gives the empty answer). -/
theorem endToEnd_overflow :
    (getLocalidade upScorching (utf8 "01001000")).1.toOption = some "São Paulo" ∧
    (getTemperatura64 runtimeUnfused upScorching "São Paulo").1.toOption =
      some (.finite 5010420900022432 971, .posInf, .finite 5010420900022432 971) ∧
    (cepHandler64 runtimeUnfused (system64 runtimeUnfused upScorching quoteLit)
        (cepPayload "01001000")).1 = ⟨500, some (H "message" "internal server error")⟩ ∧
    (cepHandler64 runtimeFused (system64 runtimeFused upScorching quoteLit)
        (cepPayload "01001000")).1 = ⟨500, some (H "message" "internal server error")⟩ := by
  have hq : F64.ofRat 1e308 = .finite 5010420900022432 971 := by decide!
  have hdec : unmarshalWeather64 (.obj [("current", .obj [("temp_c", .num 1e308)])]) =
      some ⟨⟨.finite 5010420900022432 971⟩⟩ :=
    unmarshalWeather64_entry [] [] [] [] 1e308 _ _ (by simp) (by simp) hq
  have hsafe : ∀ ch ∈ "01001000".toList, hopSafe ch :=
    fun ch hch => hopSafe_of_digit ch
      ((by decide : ∀ ch ∈ "01001000".toList, 48 ≤ ch.toNat ∧ ch.toNat ≤ 57) ch hch)
  have hreq := NewRequestWithContext_hopSafe .request "GET" "01001000" hsafe
  refine ⟨by decide!, by decide!, ?_, ?_⟩
  · have hserve := backendServe64_digits runtimeUnfused upScorching "01001000" "São Paulo" _ 200
      _ _ (by decide) (by decide) (by rfl) (by rfl) (by decide) (by rfl) hdec
    have hinf : fahrenheit64 runtimeUnfused (.finite 5010420900022432 971) = .posInf := by
      decide!
    rw [hinf, writeTemperatures_not_finite _ _ .posInf _ (Or.inr (Or.inl rfl))] at hserve
    exact cepHandler64_no_body _ (system64 runtimeUnfused upScorching quoteLit) "01001000" _ _
      (by decide) hreq hserve
  · have hserve := backendServe64_digits runtimeFused upScorching "01001000" "São Paulo" _ 200
      _ _ (by decide) (by decide) (by rfl) (by rfl) (by decide) (by rfl) hdec
    have hinf : fahrenheit64 runtimeFused (.finite 5010420900022432 971) = .posInf := by
      decide!
    rw [hinf, writeTemperatures_not_finite _ _ .posInf _ (Or.inr (Or.inl rfl))] at hserve
    exact cepHandler64_no_body _ (system64 runtimeFused upScorching quoteLit) "01001000" _ _
      (by decide) hreq hserve

/-- C7, amended: end to end, for a postal code `s` of exactly 8 digits, a
directory answer whose `localidade` is the non-empty place name `p`, and a
weather answer (status 200) whose `current.temp_c` is a number `q` in the range
of `float64`, write `c` for `q` as a `float64`; when `c*1.8 + 32` and
`c + 273.15`, computed in `float64`, are finite, the backend answers 200 with
`temp_C = c`, `temp_F = c*1.8 + 32`, `temp_K = c + 273.15`, and the frontend
answers the client 200 with the same three numbers and `city` the empty
string, whatever `p` is.  (`hf` and `hk` spell the two formulas out, with one
rounding of `c*1.8 + 32` where the compiler fuses it; `hfc`, `hff`, `hfk`: the
text written for each of the three values reads back as that value.) -/
theorem endToEnd_float64 (rt : Runtime) (up : Upstream) (quote : String → String)
    (s p : String) (q : ℚ) (status : Nat)
    (dpre dpost wpre wpost cpre cpost : List (String × Json))
    (cm ce fm fe km ke : Int)
    (hlen : s.length = 8)
    (hdig : ∀ ch ∈ s.toList, 48 ≤ ch.toNat ∧ ch.toNat ≤ 57)
    (hget : up.get (viaCEPURL (utf8 s)) =
      .response status (.json (.obj (dpre ++ ("localidade", .str p) :: dpost))))
    (hdir : ∀ kv ∈ dpre ++ dpost, keyMatches kv.1 "localidade" = false)
    (hp : p ≠ "")
    (hwget : up.get (weatherURL up.weatherAPIKey (QueryEscape (utf8 p))) =
      .response 200 (.json (.obj (wpre ++
        ("current", .obj (cpre ++ ("temp_c", .num q) :: cpost)) :: wpost))))
    (hw : ∀ kv ∈ wpre ++ wpost, keyMatches kv.1 "current" = false)
    (hcur : ∀ kv ∈ cpre ++ cpost, keyMatches kv.1 "temp_c" = false)
    (hc : F64.ofRat q = .finite cm ce)
    (hf : (if rt.fusedMultiplyAdd then
          F64.fma (.finite cm ce) (F64.ofRat 1.8) (F64.ofRat 32)
        else ((F64.finite cm ce).mul (F64.ofRat 1.8)).add (F64.ofRat 32)) = .finite fm fe)
    (hk : (F64.finite cm ce).add (F64.ofRat 273.15) = .finite km ke)
    (hfc : F64.ofRat (rt.formatFloat (.finite cm ce)) = .finite cm ce)
    (hff : F64.ofRat (rt.formatFloat (.finite fm fe)) = .finite fm fe)
    (hfk : F64.ofRat (rt.formatFloat (.finite km ke)) = .finite km ke) :
    (backendServe64 rt up (utf8 ("cep=" ++ s))).1 =
      .response 200 (.json (.obj [("temp_C", .num (rt.formatFloat (.finite cm ce))),
        ("temp_F", .num (rt.formatFloat (.finite fm fe))),
        ("temp_K", .num (rt.formatFloat (.finite km ke)))])) ∧
    (cepHandler64 rt (system64 rt up quote) (cepPayload s)).1 =
      ⟨200, some (.obj [("city", .str ""),
        ("temp_C", .num (rt.formatFloat (.finite cm ce))),
        ("temp_F", .num (rt.formatFloat (.finite fm fe))),
        ("temp_K", .num (rt.formatFloat (.finite km ke)))])⟩ := by
  have hsafe : ∀ ch ∈ s.toList, hopSafe ch := fun ch hch => hopSafe_of_digit ch (hdig ch hch)
  have hserve := backendServe64_digits rt up s p (.finite cm ce) status _ _ hlen hdig hget
    (unmarshalViaCEP_entry dpre dpost p hdir) hp hwget
    (unmarshalWeather64_entry wpre wpost cpre cpost q cm ce hw hcur hc)
  have hf2 : fahrenheit64 rt (.finite cm ce) = .finite fm fe := hf
  have hk2 : kelvin64 (.finite cm ce) = .finite km ke := hk
  rw [hf2, hk2, writeTemperatures_finite] at hserve
  refine ⟨hserve, ?_⟩
  have hrelay := cepHandler64_relay rt (system64 rt up quote) s _ _ _ _ _ _ _ (by omega)
    (NewRequestWithContext_hopSafe _ _ s hsafe) hserve
    (F64.parse_of_finite _ _ _ hfc) (F64.parse_of_finite _ _ _ hff)
    (F64.parse_of_finite _ _ _ hfk)
  rw [hrelay, writeCepOutput_finite]

/-- C7, witness: `01001000`, `São Paulo`, 25 °C give 25, 77 and 298.15. -/
theorem endToEnd_float64_witness :
    (backendServe64 runtimeUnfused upSaoPaulo (utf8 ("cep=" ++ "01001000"))).1 =
      .response 200 (.json (.obj [("temp_C", .num 25), ("temp_F", .num 77),
        ("temp_K", .num 298.15)])) ∧
    (cepHandler64 runtimeUnfused (system64 runtimeUnfused upSaoPaulo quoteLit)
        (cepPayload "01001000")).1 =
      ⟨200, some (.obj [("city", .str ""), ("temp_C", .num 25), ("temp_F", .num 77),
        ("temp_K", .num 298.15)])⟩ := by
  have e1 : runtimeUnfused.formatFloat (.finite 7036874417766400 (-48)) = 25 := by decide!
  have e2 : runtimeUnfused.formatFloat (.finite 5418393301680128 (-46)) = 77 := by decide!
  have e3 : runtimeUnfused.formatFloat (.finite 5245110269142630 (-44)) = 298.15 := by decide!
  have h := endToEnd_float64 runtimeUnfused upSaoPaulo quoteLit "01001000" "São Paulo" 25 200
    [] [] [] [] [] [] 7036874417766400 (-48) 5418393301680128 (-46) 5245110269142630 (-44)
    (by decide) (by decide) (by rfl) (by simp) (by decide) (by rfl) (by simp) (by simp)
    (by decide!) (by decide!) (by decide!) (by decide!) (by decide!) (by decide!)
  rw [e1, e2, e3] at h
  exact h

/-! ## C8 -/

set_option maxRecDepth 8192 in
/-- C8, counterexample: the payload `{"cep":"1234567\n"}` has a `cep` of
length 8, passes the validation (the answer is not 422), and yet no call to
the backend is issued. -/
theorem cepHandler_long_cep_without_call :
    8 ≤ "1234567\n".length ∧
    (cepHandler (system upSaoPaulo quoteLit) (cepPayload "1234567\n")).1.status = 500 ∧
    (cepHandler (system upSaoPaulo quoteLit) (cepPayload "1234567\n")).2 = [] := by
  decide

/-- C8, amended: a JSON object in which every entry for `cep` is a string
shorter than 8 (in particular an object without `cep`, or with an empty one)
is answered 422 `invalid zipcode` and no call is issued.  A payload
`{"cep": s}` with `s` of length at least 8 is never answered 422 (no digit
check is made); the call to the backend is issued, once and under the request
context, when the outbound request can be built, that is when `s` has no ASCII
control character before its first `#` and no malformed percent escape after
it; otherwise the answer is 500 and no call is issued. -/
theorem cepHandler_validation (w : Frontend) :
    (∀ fields : List (String × Json),
      (∀ kv ∈ fields, keyMatches kv.1 "cep" = true → ∃ s, kv.2 = .str s ∧ s.length < 8) →
      cepHandler w (.json (.obj fields)) = (⟨422, H "message" "invalid zipcode"⟩, [])) ∧
    (∀ s : String, 8 ≤ s.length →
      (cepHandler w (cepPayload s)).1.status ≠ 422 ∧
      ((containsCTL (cutAt '#' s.toList).1 = false ∧ badEscape (cutAt '#' s.toList).2 = none) →
        (cepHandler w (cepPayload s)).2 =
          [.httpCall .request (utf8 ("http://service-b:8081/temperatura" ++ "?" ++
            ("cep=" ++ String.mk (cutAt '#' s.toList).1)))]) ∧
      (¬ (containsCTL (cutAt '#' s.toList).1 = false ∧ badEscape (cutAt '#' s.toList).2 = none) →
        (cepHandler w (cepPayload s)).1.status = 500 ∧ (cepHandler w (cepPayload s)).2 = [])) := by
  refine ⟨fun fields h => ?_, fun s hs => ?_⟩
  · unfold cepHandler
    simp only [ShouldBindJSON_short fields h, StatusUnprocessableEntity]
  · have hchar := NewRequestWithContext_backendURL .request "GET" s
    by_cases hctl : containsCTL (cutAt '#' s.toList).1 = true
    · rw [if_pos hctl] at hchar
      have h := cepHandler_not_built w s _ hs hchar
      rw [h]
      refine ⟨show (500 : Nat) ≠ 422 by decide, fun hok => ?_, fun _ => ⟨rfl, rfl⟩⟩
      rw [hok.1] at hctl
      exact absurd hctl (by decide)
    · rw [if_neg hctl] at hchar
      cases hb : badEscape (cutAt '#' s.toList).2 with
      | some e =>
        rw [hb] at hchar
        have h := cepHandler_not_built w s _ hs hchar
        rw [h]
        exact ⟨show (500 : Nat) ≠ 422 by decide, fun hok => by simp at hok,
          fun _ => ⟨rfl, rfl⟩⟩
      | none =>
        rw [hb] at hchar
        have h := cepHandler_built w s _ hs hchar
        refine ⟨?_, fun _ => h.1, fun hnot => ?_⟩
        · rcases h.2 with h2 | h2
          · rw [h2]; decide
          · rw [h2]; decide
        · exact absurd ⟨by simpa using hctl, rfl⟩ hnot

set_option maxRecDepth 8192 in
/-- C8, witness: the empty object is rejected, `01001000` leads to one call. -/
theorem cepHandler_validation_witness :
    cepHandler backendDown (.json (.obj [])) = (⟨422, H "message" "invalid zipcode"⟩, []) ∧
    (cepHandler backendDown (cepPayload "01001000")).1.status ≠ 422 ∧
    (cepHandler backendDown (cepPayload "01001000")).2 =
      [.httpCall .request (utf8 "http://service-b:8081/temperatura?cep=01001000")] :=
  ⟨(cepHandler_validation backendDown).1 [] (by simp),
    ((cepHandler_validation backendDown).2 "01001000" (by decide)).1,
    ((cepHandler_validation backendDown).2 "01001000" (by decide)).2.1 ⟨by decide, by decide⟩⟩

/-! ## C9 -/

set_option maxRecDepth 8192 in
/-- C9, the code at the failing input: handling `GET /temperatura?cep=01001000`
the backend issues both of its outbound calls with `http.Get`, under
`context.Background()` and not under the inbound request's context; only the
frontend's call is issued under the request's context. -/
theorem backend_calls_ignore_request_context :
    (climaHandler upSaoPaulo ctx01001000).2 =
      [.spanStart "getLocalidade",
        .httpCall .background (utf8 "https://viacep.com.br/ws/01001000/json/"),
        .spanEnd "getLocalidade",
        .spanStart "getTemperatura",
        .httpCall .background
          (utf8 "https://api.weatherapi.com/v1/current.json?key=key&q=S%C3%A3o+Paulo&aqi=no"),
        .spanEnd "getTemperatura"] ∧
    (cepHandler (system upSaoPaulo quoteLit) (cepPayload "01001000")).2 =
      [.httpCall .request (utf8 "http://service-b:8081/temperatura?cep=01001000")] := by
  decide

/-! ## C10 -/

set_option maxRecDepth 8192 in
/-- C10, the code at the failing input: the postal code `1234567+` passes the
frontend's validation and is inserted in the URL without escaping; the backend
reads `1234567 ` (the `+` decoded as a space).  Likewise `01001000&x` is read
as `01001000`, and the client is answered 200 for a code the backend would
have rejected. -/
theorem cep_altered_across_hop :
    8 ≤ "1234567+".length ∧
    backendReads "1234567+" = some (utf8 "1234567 ") ∧
    backendReads "1234567+" ≠ some (utf8 "1234567+") ∧
    backendReads "01001000&x" = some (utf8 "01001000") ∧
    (cepHandler (system upSaoPaulo quoteLit) (cepPayload "01001000&x")).1.status = 200 := by
  decide

end OpelGoexpert
